import Mathlib

/-!
Verification of the user-space VI core (`src/lib/ciul`) of a kernel-bypass
networking stack: EFCT CTPIO transmit, EFCT superbuffer receive, AF_XDP
descriptor rings and the VI controller.

The C sources are shallowly embedded: machine counters (`uint32_t`,
`uint16_t`) are modelled as `Nat`; wrap-around is written explicitly
(`% 2 ^ 16`, `% 2 ^ 32`) at the few writes where the C type truncates and the
truncation is observable.  Arrays indexed through a power-of-two mask become
functions `Nat → _` updated with `Function.update`.  Device memory (the CTPIO
aperture) is write-only for the program, so the model tracks the write
pointer, not the stored bytes.  Constants that live in hardware headers
outside the embedded sources are taken as parameters of the model and are
noted in the doc comment of each definition that needs them.
-/

namespace Onload

/-! ### Constants (efct_vi.c, and hardware-facing values from the spec) -/

/-- `EFCT_PKT_STRIDE` (efct_vi.c): bytes per packet slot in a superbuffer. -/
def EFCT_PKT_STRIDE : Nat := 2048

/-- `PKTS_PER_SUPERBUF_BITS` (efct_vi.c): pkt ids carry the in-superbuffer
index in their low 16 bits. -/
def PKTS_PER_SUPERBUF_BITS : Nat := 16

/-- Modelled from the spec: `CI_EFCT_MAX_SUPERBUFS` lives in
`etherfabric/internal/efct_uk_api.h`, which is not part of the embedded
sources.  The spec fixes pkt-id bits [25:16] as the global superbuffer index
and bits [28:26] as the rxq index, so there are `2 ^ 10 = 1024` superbuffer
slots per queue. -/
def CI_EFCT_MAX_SUPERBUFS : Nat := 1024

/-- Modelled from the spec: `CI_EFCT_Q_SUPERBUF_ID_MASK` is declared in
`efct_uk_api.h`.  Fill-ring entries carry the superbuffer id in their low
bits with the sentinel phase in bit 15 (`rc >> 15` in `rx_rollover`), so the
id mask is `2 ^ 15 - 1`. -/
def CI_EFCT_Q_SUPERBUF_ID_MASK : Nat := 32767

/-- `EFCT_TX_ALIGNMENT` (64, per the spec's CTPIO framing contract). -/
def EFCT_TX_ALIGNMENT : Nat := 64

/-- `EFCT_TX_HEADER_BYTES` (8, per the spec's CTPIO framing contract). -/
def EFCT_TX_HEADER_BYTES : Nat := 8

/-- `errno` value `EAGAIN`. -/
def EAGAIN : Int := 11

/-- `errno` value `EINVAL`. -/
def EINVAL : Int := 22

/-- `errno` value `ENOSPC`. -/
def ENOSPC : Int := 28

/-! ### Packet-id accessors (efct_vi.c) -/

/-- `pkt_id_to_index_in_superbuf`. -/
def pkt_id_to_index_in_superbuf (pkt_id : Nat) : Nat :=
  pkt_id &&& ((1 <<< PKTS_PER_SUPERBUF_BITS) - 1)

/-- `pkt_id_to_global_superbuf_ix`. -/
def pkt_id_to_global_superbuf_ix (pkt_id : Nat) : Nat :=
  pkt_id >>> PKTS_PER_SUPERBUF_BITS

/-- `pkt_id_to_local_superbuf_ix`. -/
def pkt_id_to_local_superbuf_ix (pkt_id : Nat) : Nat :=
  pkt_id_to_global_superbuf_ix pkt_id &&& (CI_EFCT_MAX_SUPERBUFS - 1)

/-- `pkt_id_to_rxq_ix`. -/
def pkt_id_to_rxq_ix (pkt_id : Nat) : Nat :=
  pkt_id_to_global_superbuf_ix pkt_id / CI_EFCT_MAX_SUPERBUFS

/-- `rxq_ptr_to_pkt_id`: mask off the sentinel cached in bit 31. -/
def rxq_ptr_to_pkt_id (ptr : Nat) : Nat := ptr &&& 0x7fffffff

/-! ### EFCT CTPIO transmit (efct_vi.c) -/

/-- `struct efct_tx_state`.  `aperture` is the write pointer as a byte offset
from `vi_ctpio_mmap_ptr` (the C code stores the absolute pointer; the mmap
base is page aligned, so offsets preserve the 64-byte alignment checks).
`tail` holds the up-to-7 leftover bytes (`tail.length` is the C `tail_len`).
The aperture is write-only device memory and no claim reads it back, so the
model does not retain the written words. -/
structure efct_tx_state where
  aperture : Nat
  tail : List Nat

/-- `efct_tx_word`: write one 64-bit word to the aperture.  The written
`value` is not retained (write-only device memory). -/
def efct_tx_word (tx : efct_tx_state) (value : Nat) : efct_tx_state :=
  { tx with aperture := tx.aperture + 8 }

/-- `efct_tx_tail_byte`: store a left-over byte. -/
def efct_tx_tail_byte (tx : efct_tx_state) (byte : Nat) : efct_tx_state :=
  { tx with tail := tx.tail ++ [byte] }

/-- First loop of `efct_tx_block`:
`while( len > 0 && tail_len < 8 )` move bytes into the tail. -/
def efct_tx_fill_tail (tx : efct_tx_state) : List Nat → efct_tx_state × List Nat
  | [] => (tx, [])
  | b :: rest =>
    if tx.tail.length < 8 then efct_tx_fill_tail (efct_tx_tail_byte tx b) rest
    else (tx, b :: rest)

/-- Second loop of `efct_tx_block`: `while( len >= 8 )` write whole words.
The word value `*(uint64_t*)base` is not retained by the model. -/
def efct_tx_words (tx : efct_tx_state) (l : List Nat) : efct_tx_state × List Nat :=
  if 8 ≤ l.length then efct_tx_words (efct_tx_word tx 0) (l.drop 8)
  else (tx, l)
termination_by l.length
decreasing_by simp only [List.length_drop]; omega

/-- Third loop of `efct_tx_block`: `while( len > 0 )` store trailing bytes. -/
def efct_tx_trailing (tx : efct_tx_state) : List Nat → efct_tx_state
  | [] => tx
  | b :: rest => efct_tx_trailing (efct_tx_tail_byte tx b) rest

/-- `efct_tx_block`: write a block of bytes, dealing with leftovers.  The
flush of a filled tail writes `tx->tail.word` and resets `tail_len` to 0. -/
def efct_tx_block (tx : efct_tx_state) (base : List Nat) : efct_tx_state :=
  let s :=
    if tx.tail.length ≠ 0 then
      let s := efct_tx_fill_tail tx base
      if s.1.tail.length == 8 then ({ efct_tx_word s.1 s.1.tail.length with tail := [] }, s.2)
      else s
    else (tx, base)
  let s := efct_tx_words s.1 s.2
  efct_tx_trailing s.1 s.2

/-- `ef_vi_txq` fields used by the EFCT transmit path.  `desc_len` is the
per-slot `struct efct_tx_descriptor::len`; `ids` the request-id array;
`ct_fifo_bytes` the CTPIO FIFO capacity. -/
structure efct_txq where
  mask : Nat
  ct_fifo_bytes : Nat
  desc_len : Nat → Nat
  ids : Nat → Nat

/-- `ef_vi_txq_state` for the EFCT path. -/
structure efct_txq_state where
  added : Nat
  removed : Nat
  previous : Nat
  ct_added : Nat
  ct_removed : Nat

/-- Modelled from the spec: `ef_vi_transmit_space_bytes` is defined in the
public `ef_vi.h` header, outside the embedded sources.  Per the spec,
transmit is rejected before `ct_added - ct_removed` would exceed the CTPIO
FIFO capacity, so the free space is the capacity minus the outstanding
bytes. -/
def ef_vi_transmit_space_bytes (q : efct_txq) (qs : efct_txq_state) : Nat :=
  q.ct_fifo_bytes - (qs.ct_added - qs.ct_removed)

/-- `efct_tx_check`: do we have space to send a packet of this length? -/
def efct_tx_check (q : efct_txq) (qs : efct_txq_state) (len : Nat) : Bool :=
  len ≤ ef_vi_transmit_space_bytes q qs

/-- `efct_tx_init`.  `EFCT_TX_APERTURE` (the byte size of the doubly-mapped
CTPIO aperture) lives in a hardware header outside the embedded sources and
is a parameter `A` of the model. -/
def efct_tx_init (A : Nat) (qs : efct_txq_state) : efct_tx_state :=
  { aperture := qs.ct_added % A, tail := [] }

/-- The padding loop of `efct_tx_complete`:
`while( aperture % EFCT_TX_ALIGNMENT != 0 ) efct_tx_word(tx, 0)`.
The pointer advances in 8-byte words from an 8-byte-aligned offset, so the C
loop runs at most 7 times; the model gives it that much fuel explicitly. -/
def efct_tx_pad : Nat → Nat → Nat
  | 0, ap => ap
  | fuel + 1, ap =>
    if ap % EFCT_TX_ALIGNMENT == 0 then ap else efct_tx_pad fuel (ap + 8)

/-- `efct_tx_complete`: flush the tail, pad to 64-byte alignment, record the
descriptor length and request id, and advance `ct_added`/`added`. -/
def efct_tx_complete (A : Nat) (q : efct_txq) (qs : efct_txq_state)
    (tx : efct_tx_state) (dma_id : Nat) : efct_txq × efct_txq_state :=
  let i := qs.added &&& q.mask
  let tx := if tx.tail.length ≠ 0 then efct_tx_word tx 0 else tx
  let ap := efct_tx_pad 8 tx.aperture
  let start := qs.ct_added % A
  let len := ap - start
  ({ q with desc_len := Function.update q.desc_len i len,
            ids := Function.update q.ids i dma_id },
   { qs with ct_added := qs.ct_added + len, added := qs.added + 1 })

/-- `efct_ef_vi_transmit`.  The framing-header word
(`efct_tx_pkt_header(len, EFCT_TX_CT_DISABLE, 0)`) is written to the
write-only aperture; its bit pattern is not retained by the model. -/
def efct_ef_vi_transmit (A : Nat) (q : efct_txq) (qs : efct_txq_state)
    (base : List Nat) (dma_id : Nat) : Int × efct_txq × efct_txq_state :=
  if ¬ efct_tx_check q qs base.length then (-EAGAIN, q, qs)
  else
    let tx := efct_tx_init A qs
    let tx := efct_tx_word tx 0
    let tx := efct_tx_block tx base
    let r := efct_tx_complete A q qs tx dma_id
    (0, r.1, r.2)

/-! ### EFCT TX completion events (efct_vi.c) -/

/-- The fields of a TX completion event consumed by
`efct_tx_handle_event`: the inclusive wrapping sequence
(`EFCT_TX_EVENT_SEQUENCE`) and the label (`EFCT_TX_EVENT_LABEL`). -/
structure efct_tx_event where
  seq : Nat
  label : Nat

/-- The TX half of `ef_event` filled by `efct_tx_handle_event`. -/
structure ef_event_tx where
  q_id : Nat
  desc_id : Nat

/-- The reconciliation loop of `efct_tx_handle_event`:
`while( (previous & seq_mask) != ((seq + 1) & seq_mask) )` add
`desc[previous & mask].len` to `ct_removed` and advance `previous`.
The C `previous` is a free-running `uint32_t`; the model keeps it as a `Nat`,
which agrees with the C value under every `& seq_mask` and `& q->mask`
because both masks are `2 ^ k - 1` with `k ≤ 32`.  The loop revisits the
stopping condition at least once every `seq_mask + 1` increments of
`previous`, so that much fuel makes the model total. -/
def efct_tx_handle_event_loop (q : efct_txq) (seq_mask seq : Nat) :
    Nat → efct_txq_state → efct_txq_state
  | 0, qs => qs
  | fuel + 1, qs =>
    if qs.previous &&& seq_mask ≠ (seq + 1) &&& seq_mask then
      efct_tx_handle_event_loop q seq_mask seq fuel
        { qs with ct_removed := qs.ct_removed + q.desc_len (qs.previous &&& q.mask),
                  previous := qs.previous + 1 }
    else qs

/-- `efct_tx_handle_event`.  `EFCT_TX_EVENT_SEQUENCE_WIDTH` lives in a
hardware header outside the embedded sources and is the parameter `W`. -/
def efct_tx_handle_event (W : Nat) (q : efct_txq) (ev : efct_tx_event)
    (qs : efct_txq_state) : efct_txq_state × ef_event_tx :=
  let seq_mask := (1 <<< W) - 1
  let qs := efct_tx_handle_event_loop q seq_mask ev.seq (seq_mask + 1) qs
  (qs, { q_id := ev.label, desc_id := qs.previous })

/-! ### EFCT superbuffer pool and receive engine (efct_vi.c) -/

/-- One of the two single-producer/single-consumer rings of
`struct efab_efct_rxq_uk_shm` (fill ring `rxq`, free ring `freeq`).
`cap` models `CI_ARRAY_SIZE(q)`, a power-of-two array length fixed in
`efct_uk_api.h` outside the embedded sources. -/
structure efct_shm_queue where
  q : Nat → Nat
  added : Nat
  removed : Nat
  cap : Nat

/-- `struct efab_efct_rxq_uk_shm`: the kernel/user shared state of one
attached RX queue. -/
structure efab_efct_rxq_uk_shm where
  rxq : efct_shm_queue
  freeq : efct_shm_queue
  config_generation : Nat

/-- `ef_vi_efct_rxq`: the per-VI descriptor of one attached RX queue. -/
structure ef_vi_efct_rxq where
  shm : efab_efct_rxq_uk_shm
  config_generation : Nat
  superbuf_pkts : Nat
  resource_id : Nat

/-- `ef_vi_rxq_ptr`: `{next, prev}` with the expected sentinel phase carried
in bit 31 of `next`. -/
structure ef_vi_rxq_ptr where
  next : Nat
  prev : Nat

/-- The 8-byte metadata header preceding each packet, as read by the RX
path: sentinel phase bit, packet length, next-frame-offset. -/
structure efct_rx_header_fields where
  sentinel : Nat
  packet_length : Nat
  next_frame_loc : Nat

/-- The RX half of `ef_event` filled by `efct_poll_rx`. -/
structure ef_event_rx where
  q_id : Nat
  rq_id : Nat
  len : Nat

/-- The EFCT receive-side state of a VI.  `rxq_ptr`, `added` and `removed`
live in `ep_state->rxq`; `refcnt` is the `efct_rx_descriptor::refcnt` table
indexed by global superbuffer index (`vi_rxq.descriptors`); `efct_rxq` the
per-queue descriptors; `superbuf` the contiguously mapped superbuffer
memory, read as metadata headers keyed by pkt id (`efct_rx_header`).  The
data plane is single-threaded, so NIC writes during a poll are not
modelled. -/
structure efct_rx_vi where
  rxq_ptr : Nat → ef_vi_rxq_ptr
  added : Nat
  removed : Nat
  refcnt : Nat → Nat
  efct_rxq : Nat → ef_vi_efct_rxq
  superbuf : Nat → efct_rx_header_fields
  max_efct_rxq : Nat

/-- `efct_rxq_is_active`. -/
def efct_rxq_is_active (vi : efct_rx_vi) (qid : Nat) : Bool :=
  (vi.efct_rxq qid).superbuf_pkts ≠ 0

/-- `superbuf_next`: pop the fill ring, or `-EAGAIN` (modelled as `none`)
when the kernel producer count equals the consumer count. -/
def superbuf_next (rxq : ef_vi_efct_rxq) : Option Nat × ef_vi_efct_rxq :=
  let added := rxq.shm.rxq.added
  let removed := rxq.shm.rxq.removed
  if added == removed then (none, rxq)
  else
    let sbid := rxq.shm.rxq.q (removed &&& (rxq.shm.rxq.cap - 1))
    (some sbid, { rxq with shm.rxq.removed := removed + 1 })

/-- `superbuf_free`: enqueue a superbuffer id on the free ring. -/
def superbuf_free (rxq : ef_vi_efct_rxq) (sbid : Nat) : ef_vi_efct_rxq :=
  let added := rxq.shm.freeq.added
  { rxq with
      shm.freeq.q := Function.update rxq.shm.freeq.q
        (added &&& (rxq.shm.freeq.cap - 1)) sbid,
      shm.freeq.added := added + 1 }

/-- `rx_rollover`: acquire a new superbuffer and point the queue at it.  The
startup sentinel seeded by `efct_vi_attach_rxq` is detected by the strict
comparison `pkt_id_to_index_in_superbuf(next) > superbuf_pkts`.  On success
the new superbuffer's refcount is preloaded with `superbuf_pkts` (a
`uint16_t` store, hence the `% 2 ^ 16`). -/
def rx_rollover (vi : efct_rx_vi) (qid : Nat) : Int × efct_rx_vi :=
  let superbuf_pkts := (vi.efct_rxq qid).superbuf_pkts
  match superbuf_next (vi.efct_rxq qid) with
  | (none, _) => (-EAGAIN, vi)
  | (some rc, rxq') =>
    let pkt_id := (qid * CI_EFCT_MAX_SUPERBUFS + (rc &&& CI_EFCT_Q_SUPERBUF_ID_MASK))
                  <<< PKTS_PER_SUPERBUF_BITS
    let next := pkt_id ||| ((rc >>> 15) <<< 31)
    let vi := { vi with efct_rxq := Function.update vi.efct_rxq qid rxq' }
    let vi :=
      if pkt_id_to_index_in_superbuf ((vi.rxq_ptr qid).next) > superbuf_pkts then
        { vi with rxq_ptr := Function.update vi.rxq_ptr qid ⟨next + 1, next⟩ }
      else
        { vi with rxq_ptr := Function.update vi.rxq_ptr qid ⟨next, (vi.rxq_ptr qid).prev⟩ }
    let rn := Function.update vi.refcnt (pkt_id_to_global_superbuf_ix pkt_id)
      ((superbuf_pkts % 2 ^ 16 : Nat))
    (0, { vi with refcnt := rn })

/-- The fill-ring entry `superbuf_next` would pop from queue `qid`: the
value at `removed & (cap - 1)`.  An accessor used to state properties of
`rx_rollover`. -/
def fill_ring_entry (w : efct_rx_vi) (qid : Nat) : Nat :=
  (w.efct_rxq qid).shm.rxq.q
    ((w.efct_rxq qid).shm.rxq.removed &&& ((w.efct_rxq qid).shm.rxq.cap - 1))

/-- `efct_rx_next_header`: the metadata header at `next`, or `none` when its
sentinel differs from the phase expected in bit 31 of `next`. -/
def efct_rx_next_header (vi : efct_rx_vi) (qid : Nat) :
    Option efct_rx_header_fields :=
  let next := (vi.rxq_ptr qid).next
  let header := vi.superbuf (rxq_ptr_to_pkt_id next)
  let expect_phase := next >>> 31
  if expect_phase == header.sentinel then some header else none

/-- `superbuf_config_refresh`: cache the shared generation, then issue the
re-mmap control-plane request.  The request is a syscall whose result the
model takes as the oracle `refresh_rc`. -/
def superbuf_config_refresh (rxq : ef_vi_efct_rxq) (refresh_rc : Int) :
    Int × ef_vi_efct_rxq :=
  (refresh_rc, { rxq with config_generation := rxq.shm.config_generation })

/-- The header-check-and-emit tail of one `efct_poll_rx` loop iteration
(statements from `header = efct_rx_next_header(...)` to the end of the C
loop body).  On a sentinel mismatch the loop breaks with the events emitted
so far.  Otherwise one RX event `{qid, rq_id = prev, len}` is emitted,
`prev`/`next` advance, and — because `++qs->removed` sits in the for-loop
update clause, running exactly once per completed iteration — `removed` is
incremented before the remaining iterations (`cont`, the recursive rest of
the loop) run. -/
def efct_poll_rx_iter_hdr (qid : Nat)
    (cont : efct_rx_vi → List ef_event_rx × efct_rx_vi) (vi : efct_rx_vi) :
    List ef_event_rx × efct_rx_vi :=
  match efct_rx_next_header vi qid with
  | none => ([], vi)
  | some header =>
    let ev : ef_event_rx :=
      { q_id := qid,
        rq_id := rxq_ptr_to_pkt_id ((vi.rxq_ptr qid).prev),
        len := header.packet_length }
    let next := (vi.rxq_ptr qid).next
    let vi := { vi with
      rxq_ptr := Function.update vi.rxq_ptr qid ⟨next + 1, next⟩,
      removed := vi.removed + 1 }
    let rest := cont vi
    (ev :: rest.1, rest.2)

/-- The configuration-refresh step of one `efct_poll_rx` loop iteration:
when the shared generation differs from the cached one, refresh (which
recaches the generation before the control-plane request) and abandon the
poll on failure, returning the events emitted so far. -/
def efct_poll_rx_iter (qid : Nat) (refresh_rc : Int)
    (cont : efct_rx_vi → List ef_event_rx × efct_rx_vi) (vi : efct_rx_vi) :
    List ef_event_rx × efct_rx_vi :=
  if (vi.efct_rxq qid).shm.config_generation ≠ (vi.efct_rxq qid).config_generation then
    let r := superbuf_config_refresh (vi.efct_rxq qid) refresh_rc
    let vi := { vi with efct_rxq := Function.update vi.efct_rxq qid r.2 }
    if r.1 < 0 then ([], vi) else efct_poll_rx_iter_hdr qid cont vi
  else efct_poll_rx_iter_hdr qid cont vi

/-- The loop of `efct_poll_rx`, one recursive call per remaining event
slot.  Each iteration first rolls over when the in-superbuffer index has
reached `superbuf_pkts` (returning the events emitted so far if the fill
ring is empty), then refreshes and emits through `efct_poll_rx_iter`. -/
def efct_poll_rx_loop (qid : Nat) (superbuf_pkts : Nat) (refresh_rc : Int) :
    Nat → efct_rx_vi → List ef_event_rx × efct_rx_vi
  | 0, vi => ([], vi)
  | evs_len + 1, vi =>
    if pkt_id_to_index_in_superbuf (rxq_ptr_to_pkt_id ((vi.rxq_ptr qid).next))
        ≥ superbuf_pkts then
      let r := rx_rollover vi qid
      if r.1 < 0 then ([], vi)
      else efct_poll_rx_iter qid refresh_rc
        (efct_poll_rx_loop qid superbuf_pkts refresh_rc evs_len) r.2
    else efct_poll_rx_iter qid refresh_rc
      (efct_poll_rx_loop qid superbuf_pkts refresh_rc evs_len) vi

/-- `efct_poll_rx`: emit up to `evs_len` RX events for queue `qid`; inactive
queues yield nothing.  `superbuf_pkts` is read once at entry, as in the C. -/
def efct_poll_rx (vi : efct_rx_vi) (qid : Nat) (evs_len : Nat)
    (refresh_rc : Int) : List ef_event_rx × efct_rx_vi :=
  if ¬ efct_rxq_is_active vi qid then ([], vi)
  else efct_poll_rx_loop qid (vi.efct_rxq qid).superbuf_pkts refresh_rc evs_len vi

/-- `efct_vi_rxpkt_release`: decrement the refcount of the superbuffer the
pkt id references (`uint16_t`, so the decrement wraps mod `2 ^ 16`); on
reaching zero return the superbuffer to the free ring. -/
def efct_vi_rxpkt_release (vi : efct_rx_vi) (pkt_id : Nat) : efct_rx_vi :=
  let sb := pkt_id_to_global_superbuf_ix pkt_id
  let r := (vi.refcnt sb + (2 ^ 16 - 1)) % 2 ^ 16
  let vi := { vi with refcnt := Function.update vi.refcnt sb r }
  if r == 0 then
    let qix := pkt_id_to_rxq_ix pkt_id
    let rq := Function.update vi.efct_rxq qix
      (superbuf_free (vi.efct_rxq qix) (pkt_id_to_local_superbuf_ix pkt_id))
    { vi with efct_rxq := rq }
  else vi

/-- The state updates of `efct_vi_attach_rxq` for the success path: the
first inactive queue slot is claimed, the freshly mmapped shared state
(`shm`, from `ci_resource_mmap`) and resource id (from `ci_resource_alloc`)
are recorded, the cached generation is set one behind the shared one to
force a refresh (a `uint32_t` subtraction, hence the wrap), and
`rxq_ptr[ix].next` is seeded with `1 + superbuf_pkts` to force an initial
rollover that ignores the first metadata slot.  `EFCT_RX_SUPERBUF_BYTES`
lives in `efct_uk_api.h` outside the embedded sources and is the parameter
`superbuf_bytes`.  Returns `none` for `-ENOSPC` (no free queue slot). -/
def efct_vi_attach_rxq (vi : efct_rx_vi) (superbuf_bytes : Nat)
    (resource_id : Nat) (shm : efab_efct_rxq_uk_shm) : Option (Nat × efct_rx_vi) :=
  match (List.range vi.max_efct_rxq).find? (fun ix => ¬ efct_rxq_is_active vi ix) with
  | none => none
  | some ix =>
    let pkts := superbuf_bytes / EFCT_PKT_STRIDE
    let rxq : ef_vi_efct_rxq :=
      { shm := shm,
        config_generation := (shm.config_generation + (2 ^ 32 - 1)) % 2 ^ 32,
        superbuf_pkts := pkts,
        resource_id := resource_id }
    some (ix,
      { vi with
          efct_rxq := Function.update vi.efct_rxq ix rxq,
          rxq_ptr := Function.update vi.rxq_ptr ix
            { vi.rxq_ptr ix with next := 1 + pkts } })

/-! ### AF_XDP transmit and receive (efxdp_vi.c) -/

/-- `EF_REQUEST_ID_MASK`: the sentinel marking an unused request-id slot
(`(1u << EF_VI_TRANSMIT_ID_BITS) - 1`, from the public header; the exact
value is irrelevant to the claims, only that free slots bear it). -/
def EF_REQUEST_ID_MASK : Nat := 0xffffffff

/-- The AF_XDP state of a VI, flattening the C locations:
`tx_*` come from `vi_txq` (ring `mask`, request-id array `ids`) and
`ep_state->txq` (`added`, `removed`, `previous`); `xdp_tx_desc` is the
`struct xdp_desc` ring `vi->xdp_tx.desc` as `(addr, len)` pairs and
`xdp_tx_producer` the shared `*vi->xdp_tx.producer`; `rx_*` likewise from
`vi_rxq`/`ep_state->rxq`, with `xdp_fr_desc`/`xdp_fr_producer` the fill
ring.  `kicks` counts the `vi->xdp_kick(vi)` syscalls the code has issued
(model bookkeeping; the kernel's acceptance of a kick is the oracle
argument `kick_ok` below). -/
structure efxdp_vi where
  tx_mask : Nat
  tx_ids : Nat → Nat
  tx_added : Nat
  tx_removed : Nat
  tx_previous : Nat
  xdp_tx_desc : Nat → Nat × Nat
  xdp_tx_producer : Nat
  rx_mask : Nat
  rx_ids : Nat → Nat
  rx_added : Nat
  rx_removed : Nat
  xdp_fr_desc : Nat → Nat
  xdp_fr_producer : Nat
  kicks : Nat

/-- `efxdp_ef_vi_transmitv_init`: post one packet on the TX descriptor
ring.  Rejects `iov_len != 1` with `-EINVAL` and a full ring
(`added - removed >= q->mask`, a `uint32_t` subtraction that equals the
`Nat` one while `removed ≤ added`) with `-EAGAIN`, both before any state is
touched. -/
def efxdp_ef_vi_transmitv_init (vi : efxdp_vi) (iov : List (Nat × Nat))
    (dma_id : Nat) : Int × efxdp_vi :=
  if iov.length ≠ 1 then (-EINVAL, vi)
  else if vi.tx_added - vi.tx_removed ≥ vi.tx_mask then (-EAGAIN, vi)
  else
    let i := vi.tx_added &&& vi.tx_mask
    (0, { vi with
            tx_ids := Function.update vi.tx_ids i dma_id,
            xdp_tx_desc := Function.update vi.xdp_tx_desc i (iov.headD (0, 0)),
            tx_added := vi.tx_added + 1 })

/-- `efxdp_tx_kick`: issue the kick syscall; on success (`kick_ok`) record
`previous = added`. -/
def efxdp_tx_kick (kick_ok : Bool) (vi : efxdp_vi) : efxdp_vi :=
  let vi := { vi with kicks := vi.kicks + 1 }
  if kick_ok then { vi with tx_previous := vi.tx_added } else vi

/-- `efxdp_ef_vi_transmit_push`: publish `added` to the shared producer and
kick the kernel. -/
def efxdp_ef_vi_transmit_push (kick_ok : Bool) (vi : efxdp_vi) : efxdp_vi :=
  efxdp_tx_kick kick_ok { vi with xdp_tx_producer := vi.tx_added }

/-- `efxdp_ef_vi_transmit`: single-buffer transmit; pushes only when the
descriptor write succeeded. -/
def efxdp_ef_vi_transmit (kick_ok : Bool) (vi : efxdp_vi) (base len dma_id : Nat) :
    Int × efxdp_vi :=
  let r := efxdp_ef_vi_transmitv_init vi [(base, len)] dma_id
  if r.1 == 0 then (r.1, efxdp_ef_vi_transmit_push kick_ok r.2) else r

/-- `efxdp_ef_vi_transmitv`. -/
def efxdp_ef_vi_transmitv (kick_ok : Bool) (vi : efxdp_vi)
    (iov : List (Nat × Nat)) (dma_id : Nat) : Int × efxdp_vi :=
  let r := efxdp_ef_vi_transmitv_init vi iov dma_id
  if r.1 == 0 then (r.1, efxdp_ef_vi_transmit_push kick_ok r.2) else r

/-- `efxdp_ef_vi_receive_init`: post one buffer on the fill ring; `-EAGAIN`
when `added - removed >= q->mask`. -/
def efxdp_ef_vi_receive_init (vi : efxdp_vi) (addr dma_id : Nat) :
    Int × efxdp_vi :=
  if vi.rx_added - vi.rx_removed ≥ vi.rx_mask then (-EAGAIN, vi)
  else
    let i := vi.rx_added &&& vi.rx_mask
    (0, { vi with
            rx_ids := Function.update vi.rx_ids i dma_id,
            xdp_fr_desc := Function.update vi.xdp_fr_desc i addr,
            rx_added := vi.rx_added + 1 })

/-- One user-invocable AF_XDP descriptor-posting operation, for stating
properties over all operation sequences.  `transmit` is the transmit-plus-
push entry point (`kick_ok` is the kernel's acceptance of the kick). -/
inductive efxdp_op where
  | transmitv_init (iov : List (Nat × Nat)) (dma_id : Nat)
  | transmit (kick_ok : Bool) (base len dma_id : Nat)
  | receive_init (addr dma_id : Nat)

/-- Apply one AF_XDP operation to the VI state. -/
def efxdp_step (vi : efxdp_vi) : efxdp_op → efxdp_vi
  | .transmitv_init iov dma_id => (efxdp_ef_vi_transmitv_init vi iov dma_id).2
  | .transmit kick_ok base len dma_id =>
      (efxdp_ef_vi_transmit kick_ok vi base len dma_id).2
  | .receive_init addr dma_id => (efxdp_ef_vi_receive_init vi addr dma_id).2

/-- Run a sequence of AF_XDP operations. -/
def efxdp_run (vi : efxdp_vi) (ops : List efxdp_op) : efxdp_vi :=
  ops.foldl efxdp_step vi

/-- The per-queue counter invariant of the spec: `added ≥ removed` and
`added - removed ≤ mask + 1`, for the TX and RX rings of an AF_XDP VI. -/
def efxdp_counters_ok (vi : efxdp_vi) : Prop :=
  vi.tx_removed ≤ vi.tx_added ∧ vi.tx_added - vi.tx_removed ≤ vi.tx_mask + 1 ∧
  vi.rx_removed ≤ vi.rx_added ∧ vi.rx_added - vi.rx_removed ≤ vi.rx_mask + 1

/-! ### VI controller (vi_init.c) -/

/-- `enum ef_vi_arch` (public header `etherfabric/ef_vi.h`, outside the
embedded sources): the distinct architecture tags the dispatch switches on.
`other` stands for any further value. -/
inductive ef_vi_arch where
  | EF10
  | EF100
  | AF_XDP
  | EFCT
  | other
deriving DecidableEq

/-- `ef_vi_init`: the architecture dispatch at the end of the function.
Returns the C return code together with the architecture-specific
initializer that was invoked (`ef10_vi_init`, `ef100_vi_init`,
`efxdp_vi_init`), or `none` when the `default:` branch returns `-EINVAL`
without dispatching.  The preceding field assignments (`nic_type`,
`vi_flags`, `ep_state`, …) do not depend on the arch and are omitted. -/
def ef_vi_init (arch : ef_vi_arch) : Int × Option ef_vi_arch :=
  match arch with
  | .EF10 => (0, some .EF10)
  | .EF100 => (0, some .EF100)
  | .AF_XDP => (0, some .AF_XDP)
  | _ => (-EINVAL, none)

/-- The rx-queue state touched by `ef_vi_rxq_reinit`: `vi_rxq.mask`,
`vi_rxq.ids`, and `ep_state->rxq.{added, removed, posted}`. -/
structure rxq_reinit_state where
  mask : Nat
  ids : Nat → Nat
  added : Nat
  removed : Nat
  posted : Nat

/-- The reclaim loop of `ef_vi_rxq_reinit`:
`while( removed < added )` invoke the callback on `ids[removed & mask]`,
write the sentinel back, and advance `removed`.  Returns the request ids
passed to the callback, in invocation order, together with the final id
array. -/
def rxq_reinit_loop (mask : Nat) (ids : Nat → Nat) (added removed : Nat) :
    List Nat × (Nat → Nat) :=
  if removed < added then
    let di := removed &&& mask
    let r := rxq_reinit_loop mask (Function.update ids di EF_REQUEST_ID_MASK)
      added (removed + 1)
    (ids di :: r.1, r.2)
  else ([], ids)
termination_by added - removed
decreasing_by omega

/-- `ef_vi_rxq_reinit`: run the reclaim loop, then zero
`added`/`removed`/`posted`.  The result is the list of request ids handed to
the callback and the reset state (`last_desc_i`, `in_jumbo` and `bytes_acc`
are also zeroed in the C but nothing here reads them). -/
def ef_vi_rxq_reinit (s : rxq_reinit_state) : List Nat × rxq_reinit_state :=
  let r := rxq_reinit_loop s.mask s.ids s.added s.removed
  (r.1, { s with ids := r.2, added := 0, removed := 0, posted := 0 })

/-! ### Concrete states used by witnesses and counterexamples -/

/-- An idle 4-slot AF_XDP VI. -/
def efxdp_vi_idle : efxdp_vi :=
  { tx_mask := 3, tx_ids := fun _ => EF_REQUEST_ID_MASK, tx_added := 0,
    tx_removed := 0, tx_previous := 0, xdp_tx_desc := fun _ => (0, 0),
    xdp_tx_producer := 0, rx_mask := 3, rx_ids := fun _ => EF_REQUEST_ID_MASK,
    rx_added := 0, rx_removed := 0, xdp_fr_desc := fun _ => 0,
    xdp_fr_producer := 0, kicks := 0 }

/-- A 2-slot AF_XDP VI with one outstanding TX and one outstanding RX
descriptor: `added - removed = 1 = mask`, one below the ring capacity 2. -/
def efxdp_vi_one_outstanding : efxdp_vi :=
  { tx_mask := 1, tx_ids := fun _ => EF_REQUEST_ID_MASK, tx_added := 1,
    tx_removed := 0, tx_previous := 1, xdp_tx_desc := fun _ => (0, 0),
    xdp_tx_producer := 1, rx_mask := 1, rx_ids := fun _ => EF_REQUEST_ID_MASK,
    rx_added := 1, rx_removed := 0, xdp_fr_desc := fun _ => 0,
    xdp_fr_producer := 1, kicks := 0 }

/-- An 8-slot EFCT TX queue with an empty descriptor table and a 32 KiB
CTPIO FIFO. -/
def efct_txq_ex : efct_txq :=
  { mask := 7, ct_fifo_bytes := 32768, desc_len := fun _ => 0,
    ids := fun _ => EF_REQUEST_ID_MASK }

/-- The all-zero EFCT TX queue state. -/
def efct_txq_state_zero : efct_txq_state :=
  { added := 0, removed := 0, previous := 0, ct_added := 0, ct_removed := 0 }

/-- An empty kernel/user shared ring with 8 slots. -/
def efct_shm_queue_empty : efct_shm_queue :=
  { q := fun _ => 0, added := 0, removed := 0, cap := 8 }

/-- Shared RX state whose fill ring holds one superbuffer (id 5, sentinel
phase 0) and whose free ring is empty. -/
def efct_shm_one_filled : efab_efct_rxq_uk_shm :=
  { rxq := { q := fun _ => 5, added := 1, removed := 0, cap := 8 },
    freeq := efct_shm_queue_empty,
    config_generation := 0 }

/-- Shared RX state with both rings empty. -/
def efct_shm_empty : efab_efct_rxq_uk_shm :=
  { rxq := efct_shm_queue_empty, freeq := efct_shm_queue_empty,
    config_generation := 0 }

/-- An EFCT receive VI with one active queue (2 packets per superbuffer),
positioned at packet 0 with a matching sentinel, and one superbuffer
pending on the fill ring. -/
def efct_rx_vi_ex : efct_rx_vi :=
  { rxq_ptr := fun _ => { next := 0, prev := 0 },
    added := 0, removed := 0,
    refcnt := fun _ => 0,
    efct_rxq := fun _ =>
      { shm := efct_shm_one_filled, config_generation := 0,
        superbuf_pkts := 2, resource_id := 0 },
    superbuf := fun _ => { sentinel := 0, packet_length := 60, next_frame_loc := 1 },
    max_efct_rxq := 1 }

/-- The same VI with an empty fill ring and its queue pointer exhausted
(`next.index = superbuf_pkts`), i.e. needing a rollover that cannot be
served. -/
def efct_rx_vi_starved : efct_rx_vi :=
  { rxq_ptr := fun _ => { next := 2, prev := 1 },
    added := 0, removed := 0,
    refcnt := fun _ => 0,
    efct_rxq := fun _ =>
      { shm := efct_shm_empty, config_generation := 0,
        superbuf_pkts := 2, resource_id := 0 },
    superbuf := fun _ => { sentinel := 0, packet_length := 60, next_frame_loc := 1 },
    max_efct_rxq := 1 }

/-- A fully inactive EFCT receive VI, ready for `efct_vi_attach_rxq`. -/
def efct_rx_vi_detached : efct_rx_vi :=
  { rxq_ptr := fun _ => { next := 0, prev := 0 },
    added := 0, removed := 0,
    refcnt := fun _ => 0,
    efct_rxq := fun _ =>
      { shm := efct_shm_empty, config_generation := 0,
        superbuf_pkts := 0, resource_id := 0 },
    superbuf := fun _ => { sentinel := 0, packet_length := 60, next_frame_loc := 1 },
    max_efct_rxq := 8 }

/-- The detached VI after `efct_vi_attach_rxq` with 4 KiB superbuffers
(2 packets each), resource id 1 and the empty shared state: queue 0 becomes
active with `rxq_ptr.next` seeded to `1 + 2 = 3`. -/
def efct_rx_vi_attached : efct_rx_vi :=
  { efct_rx_vi_detached with
      efct_rxq := Function.update efct_rx_vi_detached.efct_rxq 0
        { shm := efct_shm_empty, config_generation := 4294967295,
          superbuf_pkts := 2, resource_id := 1 },
      rxq_ptr := Function.update efct_rx_vi_detached.rxq_ptr 0
        { next := 3, prev := 0 } }

/-- The one-filled VI with superbuffer 5 current and its refcount already
down to 2 (2 packets per superbuffer, both emitted, none yet released). -/
def efct_rx_vi_refcount2 : efct_rx_vi :=
  { efct_rx_vi_ex with refcnt := fun i => if i = 5 then 2 else 0 }

/-- An RX reinit state with three outstanding request ids 100, 200, 300 in
slots 0..2 of a 4-slot ring. -/
def rxq_reinit_ex : rxq_reinit_state :=
  { mask := 3,
    ids := fun i => if i = 0 then 100 else if i = 1 then 200 else
      if i = 2 then 300 else EF_REQUEST_ID_MASK,
    added := 3, removed := 0, posted := 3 }

/-! ## Theorems

Shared helper lemmas come first, then one theorem per claim (with its
witness or counterexample). -/

/-- Bitwise or of numbers with disjoint bits is addition. -/
theorem lor_eq_add_of_and_eq_zero : ∀ {a b : Nat}, a &&& b = 0 → a ||| b = a + b := by
  intro a
  induction a using Nat.strong_induction_on with
  | _ a ih =>
    intro b h
    rcases Nat.eq_zero_or_pos a with rfl | ha
    · simp
    have hd : a / 2 &&& b / 2 = 0 := by rw [← Nat.and_div_two, h]
    have ih2 := ih (a / 2) (Nat.div_lt_self ha (by omega)) hd
    have hm : ¬(a % 2 = 1 ∧ b % 2 = 1) := by
      intro hc
      have := Nat.and_mod_two_eq_one.mpr hc
      rw [h] at this
      simp at this
    have hor : (a ||| b) % 2 = 1 ↔ a % 2 = 1 ∨ b % 2 = 1 := Nat.or_mod_two_eq_one
    have hdiv : (a ||| b) / 2 = a / 2 ||| b / 2 := Nat.or_div_two
    have e1 := Nat.div_add_mod (a ||| b) 2
    have e2 := Nat.div_add_mod a 2
    have e3 := Nat.div_add_mod b 2
    have m1 := Nat.mod_two_eq_zero_or_one (a ||| b)
    have m2 := Nat.mod_two_eq_zero_or_one a
    have m3 := Nat.mod_two_eq_zero_or_one b
    rw [hdiv, ih2] at e1
    rcases m2 with h2 | h2 <;> rcases m3 with h3 | h3 <;> omega

/-- A number below `2 ^ n` shares no bits with `2 ^ n`. -/
theorem and_two_pow_eq_zero_of_lt {a n : Nat} (h : a < 2 ^ n) : a &&& 2 ^ n = 0 := by
  apply Nat.eq_of_testBit_eq
  intro i
  rcases eq_or_ne i n with rfl | hne
  · simp [Nat.testBit_and, Nat.testBit_lt_two_pow h]
  · simp [Nat.testBit_and, Nat.testBit_two_pow_of_ne (Ne.symm hne)]

/-- C5 counterexample: `ef_vi_init` does not dispatch for the EFCT
architecture; its switch has no `EF_VI_ARCH_EFCT` case, so EFCT falls into
`default:` and the call returns `-EINVAL` without invoking any
architecture-specific initializer. -/
theorem ef_vi_init_efct_einval_counterexample :
    ef_vi_init ef_vi_arch.EFCT = (-EINVAL, none) ∧
    (ef_vi_init ef_vi_arch.EFCT).1 ≠ 0 ∧ (ef_vi_init ef_vi_arch.EFCT).1 < 0 := by
  refine ⟨rfl, by decide, by decide⟩

/-- C5 (amended): `ef_vi_init` dispatches to the architecture-specific
initialization and returns 0 exactly for the EF10, EF100 and AF_XDP
architectures; for every other architecture — including EFCT — it returns
`-EINVAL` and dispatches to none. -/
theorem ef_vi_init_dispatch_spec (arch : ef_vi_arch) :
    (arch = ef_vi_arch.EF10 ∨ arch = ef_vi_arch.EF100 ∨ arch = ef_vi_arch.AF_XDP →
      ef_vi_init arch = (0, some arch)) ∧
    (arch ≠ ef_vi_arch.EF10 → arch ≠ ef_vi_arch.EF100 → arch ≠ ef_vi_arch.AF_XDP →
      ef_vi_init arch = (-EINVAL, none)) := by
  cases arch <;> simp [ef_vi_init]

/-- Witness for C5's amended theorem at the AF_XDP and EFCT architectures. -/
theorem ef_vi_init_dispatch_spec_witness :
    ef_vi_init ef_vi_arch.AF_XDP = (0, some ef_vi_arch.AF_XDP) ∧
    ef_vi_init ef_vi_arch.EFCT = (-EINVAL, none) :=
  ⟨(ef_vi_init_dispatch_spec ef_vi_arch.AF_XDP).1 (Or.inr (Or.inr rfl)),
   (ef_vi_init_dispatch_spec ef_vi_arch.EFCT).2 (by decide) (by decide) (by decide)⟩

/-- C4 counterexample: with ring capacity `mask + 1 = 2` and exactly one
outstanding descriptor (`added - removed = 1 < capacity`), the claim
predicts success, but both `efxdp_ef_vi_transmitv_init` and
`efxdp_ef_vi_receive_init` return `-EAGAIN`: the code's guard is
`added - removed >= q->mask`, not `>= mask + 1`. -/
theorem efxdp_ring_guard_counterexample :
    efxdp_vi_one_outstanding.tx_added - efxdp_vi_one_outstanding.tx_removed
      < efxdp_vi_one_outstanding.tx_mask + 1 ∧
    (efxdp_ef_vi_transmitv_init efxdp_vi_one_outstanding [(4096, 64)] 7).1 = -EAGAIN ∧
    efxdp_vi_one_outstanding.rx_added - efxdp_vi_one_outstanding.rx_removed
      < efxdp_vi_one_outstanding.rx_mask + 1 ∧
    (efxdp_ef_vi_receive_init efxdp_vi_one_outstanding 4096 7).1 = -EAGAIN := by
  refine ⟨by decide, rfl, by decide, rfl⟩

/-- C4 (amended): `efxdp_ef_vi_receive_init` and
`efxdp_ef_vi_transmitv_init` succeed whenever `added - removed < mask`
(i.e. strictly fewer than `capacity - 1` outstanding) and fail with
`-EAGAIN`, changing nothing, exactly when `added - removed ≥ mask`; on
success they write the descriptor at slot `added & mask`, store the dma id
there, and increment `added`. -/
theorem efxdp_init_ring_guard_spec (vi : efxdp_vi) (iov : List (Nat × Nat))
    (dma_id addr : Nat) (hiov : iov.length = 1) :
    (vi.tx_mask ≤ vi.tx_added - vi.tx_removed →
      efxdp_ef_vi_transmitv_init vi iov dma_id = (-EAGAIN, vi)) ∧
    (vi.tx_added - vi.tx_removed < vi.tx_mask →
      efxdp_ef_vi_transmitv_init vi iov dma_id =
        (0, { vi with
                tx_ids := Function.update vi.tx_ids (vi.tx_added &&& vi.tx_mask) dma_id,
                xdp_tx_desc := Function.update vi.xdp_tx_desc
                  (vi.tx_added &&& vi.tx_mask) (iov.headD (0, 0)),
                tx_added := vi.tx_added + 1 })) ∧
    (vi.rx_mask ≤ vi.rx_added - vi.rx_removed →
      efxdp_ef_vi_receive_init vi addr dma_id = (-EAGAIN, vi)) ∧
    (vi.rx_added - vi.rx_removed < vi.rx_mask →
      efxdp_ef_vi_receive_init vi addr dma_id =
        (0, { vi with
                rx_ids := Function.update vi.rx_ids (vi.rx_added &&& vi.rx_mask) dma_id,
                xdp_fr_desc := Function.update vi.xdp_fr_desc
                  (vi.rx_added &&& vi.rx_mask) addr,
                rx_added := vi.rx_added + 1 })) := by
  refine ⟨fun h => ?_, fun h => ?_, fun h => ?_, fun h => ?_⟩ <;>
    simp only [efxdp_ef_vi_transmitv_init, efxdp_ef_vi_receive_init, hiov] <;>
    split_ifs with h1 <;> first | rfl | omega

/-- Witness for C4's amended theorem: on the idle 4-slot VI a post succeeds
and lands in slot 0; on the one-outstanding 2-slot VI it fails. -/
theorem efxdp_init_ring_guard_spec_witness :
    (efxdp_ef_vi_transmitv_init efxdp_vi_idle [(4096, 64)] 7 =
      (0, { efxdp_vi_idle with
              tx_ids := Function.update efxdp_vi_idle.tx_ids 0 7,
              xdp_tx_desc := Function.update efxdp_vi_idle.xdp_tx_desc 0 (4096, 64),
              tx_added := 1 })) ∧
    efxdp_ef_vi_transmitv_init efxdp_vi_one_outstanding [(4096, 64)] 7 =
      (-EAGAIN, efxdp_vi_one_outstanding) :=
  ⟨(efxdp_init_ring_guard_spec efxdp_vi_idle [(4096, 64)] 7 4096 rfl).2.1 (by decide),
   (efxdp_init_ring_guard_spec efxdp_vi_one_outstanding [(4096, 64)] 7 4096 rfl).1
     (by decide)⟩

/-- C10: when the AF_XDP single-shot transmit path fails — `-EINVAL` from
`transmitv_init` for `iov_len ≠ 1`, or `-EAGAIN` on a full ring — no state
changes at all: the returned VI is the input VI, so `added`, the id array,
the descriptor ring, the shared producer index and the kick count are all
untouched; only on success is the producer index published (to the
incremented `added`) and the kick syscall attempted. -/
theorem efxdp_transmit_failure_unchanged_spec (vi : efxdp_vi) (kick_ok : Bool)
    (iov : List (Nat × Nat)) (base len dma_id : Nat) :
    ((efxdp_ef_vi_transmitv_init vi iov dma_id).1 ≠ 0 →
      (efxdp_ef_vi_transmitv_init vi iov dma_id).2 = vi) ∧
    ((efxdp_ef_vi_transmitv kick_ok vi iov dma_id).1 ≠ 0 →
      (efxdp_ef_vi_transmitv kick_ok vi iov dma_id).2 = vi) ∧
    ((efxdp_ef_vi_transmit kick_ok vi base len dma_id).1 ≠ 0 →
      (efxdp_ef_vi_transmit kick_ok vi base len dma_id).2 = vi) ∧
    ((efxdp_ef_vi_transmit kick_ok vi base len dma_id).1 = 0 →
      (efxdp_ef_vi_transmit kick_ok vi base len dma_id).2.xdp_tx_producer =
        vi.tx_added + 1 ∧
      (efxdp_ef_vi_transmit kick_ok vi base len dma_id).2.kicks = vi.kicks + 1) := by
  unfold efxdp_ef_vi_transmit efxdp_ef_vi_transmitv efxdp_ef_vi_transmitv_init
    efxdp_ef_vi_transmit_push efxdp_tx_kick
  split_ifs <;> simp_all [EAGAIN, EINVAL]

/-- Witness for C10: an EAGAIN-failing transmit on the full 2-slot VI
leaves it untouched, and a successful transmit on the idle VI publishes the
producer and issues exactly one kick. -/
theorem efxdp_transmit_failure_unchanged_spec_witness :
    ((efxdp_ef_vi_transmit true efxdp_vi_one_outstanding 4096 64 7).1 ≠ 0 →
      (efxdp_ef_vi_transmit true efxdp_vi_one_outstanding 4096 64 7).2 =
        efxdp_vi_one_outstanding) ∧
    ((efxdp_ef_vi_transmit true efxdp_vi_idle 4096 64 7).1 = 0 →
      (efxdp_ef_vi_transmit true efxdp_vi_idle 4096 64 7).2.xdp_tx_producer = 1 ∧
      (efxdp_ef_vi_transmit true efxdp_vi_idle 4096 64 7).2.kicks = 1) :=
  ⟨(efxdp_transmit_failure_unchanged_spec efxdp_vi_one_outstanding true
      [(4096, 64)] 4096 64 7).2.2.1,
   (efxdp_transmit_failure_unchanged_spec efxdp_vi_idle true
      [(4096, 64)] 4096 64 7).2.2.2⟩

/-- The reclaim loop reads each outstanding slot before overwriting it, so
while the masked slots of the window are pairwise distinct the calls are
exactly the initial ids of the window, in `removed..added` order. -/
theorem rxq_reinit_loop_calls (mask added : Nat) :
    ∀ n removed (ids : Nat → Nat), added - removed = n →
      (∀ r1 r2, removed ≤ r1 → r1 < r2 → r2 < added → r1 &&& mask ≠ r2 &&& mask) →
      (rxq_reinit_loop mask ids added removed).1 =
        (List.range n).map (fun j => ids ((removed + j) &&& mask)) := by
  intro n
  induction n with
  | zero =>
    intro removed ids h _
    rw [rxq_reinit_loop]
    simp only [List.range_zero, List.map_nil]
    rw [if_neg (by omega)]
  | succ k ih =>
    intro removed ids h hd
    rw [rxq_reinit_loop, if_pos (by omega)]
    have hrec := ih (removed + 1)
      (Function.update ids (removed &&& mask) EF_REQUEST_ID_MASK) (by omega)
      (fun r1 r2 h1 h2 h3 => hd r1 r2 (by omega) h2 h3)
    simp only [hrec, List.range_succ_eq_map, List.map_cons, List.map_map]
    refine congrArg₂ _ (by simp) ?_
    apply List.map_congr_left
    intro j hj
    have hj' : j < k := List.mem_range.mp hj
    have hne : removed &&& mask ≠ (removed + 1 + j) &&& mask :=
      hd removed (removed + 1 + j) (Nat.le_refl _) (by omega) (by omega)
    simp only [Function.comp]
    rw [Function.update_noteq (Ne.symm hne)]
    congr 2
    omega

/-- After the reclaim loop, a slot holds the sentinel iff it was hit by the
window or already held it; in particular sentinel slots stay sentinel. -/
theorem rxq_reinit_loop_ids (mask added : Nat) :
    ∀ n removed (ids : Nat → Nat), added - removed = n → ∀ i,
      ((ids i = EF_REQUEST_ID_MASK →
        (rxq_reinit_loop mask ids added removed).2 i = EF_REQUEST_ID_MASK) ∧
       ((∃ r, removed ≤ r ∧ r < added ∧ r &&& mask = i) →
        (rxq_reinit_loop mask ids added removed).2 i = EF_REQUEST_ID_MASK) ∧
       ((∀ r, removed ≤ r → r < added → r &&& mask ≠ i) →
        (rxq_reinit_loop mask ids added removed).2 i = ids i)) := by
  intro n
  induction n with
  | zero =>
    intro removed ids h i
    rw [rxq_reinit_loop, if_neg (by omega)]
    exact ⟨fun h => h, fun ⟨r, h1, h2, _⟩ => absurd (by omega) (by omega : ¬r < r),
      fun _ => rfl⟩
  | succ k ih =>
    intro removed ids h i
    rw [rxq_reinit_loop, if_pos (by omega)]
    have ihu := ih (removed + 1)
      (Function.update ids (removed &&& mask) EF_REQUEST_ID_MASK) (by omega) i
    refine ⟨fun hs => ihu.1 ?_, fun ⟨r, h1, h2, h3⟩ => ?_, fun hno => ?_⟩
    · by_cases hc : removed &&& mask = i
      · rw [hc]; simp
      · rwa [Function.update_noteq (fun hx => hc (by rw [hx]))]
    · rcases Nat.eq_or_lt_of_le h1 with rfl | hlt
      · exact ihu.1 (by rw [← h3]; simp)
      · exact ihu.2.1 ⟨r, by omega, h2, h3⟩
    · have hfirst : removed &&& mask ≠ i := hno removed (Nat.le_refl _) (by omega)
      rw [ihu.2.2 (fun r h1 h2 => hno r (by omega) h2)]
      rw [Function.update_noteq (fun hx => hfirst (by rw [hx]))]

/-- C8: `ef_vi_rxq_reinit` invokes the reclaim callback exactly once per
outstanding slot, in `removed..added` order; afterwards
`added = removed = 0` and every request-id slot holds the sentinel, so an
immediately following second `ef_vi_rxq_reinit` invokes the callback zero
times.  The hypotheses are the ring's structural invariants: the mask is
`2 ^ k - 1`, the outstanding window does not exceed the capacity, and slots
outside the window hold the sentinel. -/
theorem rxq_reinit_spec (s : rxq_reinit_state) (k : Nat)
    (hmask : s.mask = 2 ^ k - 1) (hwin : s.added - s.removed ≤ 2 ^ k)
    (hout : ∀ i, i ≤ s.mask →
      (∀ r, s.removed ≤ r → r < s.added → r &&& s.mask ≠ i) →
      s.ids i = EF_REQUEST_ID_MASK) :
    (ef_vi_rxq_reinit s).1 =
      (List.range (s.added - s.removed)).map
        (fun j => s.ids ((s.removed + j) &&& s.mask)) ∧
    (ef_vi_rxq_reinit s).2.added = 0 ∧ (ef_vi_rxq_reinit s).2.removed = 0 ∧
    (∀ i, i ≤ s.mask → (ef_vi_rxq_reinit s).2.ids i = EF_REQUEST_ID_MASK) ∧
    (ef_vi_rxq_reinit (ef_vi_rxq_reinit s).2).1 = [] := by
  have hdist : ∀ r1 r2, s.removed ≤ r1 → r1 < r2 → r2 < s.added →
      r1 &&& s.mask ≠ r2 &&& s.mask := by
    intro r1 r2 h1 h2 h3 hc
    rw [hmask, Nat.and_pow_two_sub_one_eq_mod, Nat.and_pow_two_sub_one_eq_mod] at hc
    have hdvd : 2 ^ k ∣ r2 - r1 := (Nat.modEq_iff_dvd' (by omega)).mp hc
    have := Nat.le_of_dvd (by omega) hdvd
    omega
  refine ⟨rxq_reinit_loop_calls s.mask s.added _ s.removed s.ids rfl hdist,
    rfl, rfl, fun i hi => ?_, ?_⟩
  · by_cases hc : ∃ r, s.removed ≤ r ∧ r < s.added ∧ r &&& s.mask = i
    · exact (rxq_reinit_loop_ids s.mask s.added _ s.removed s.ids rfl i).2.1 hc
    · push_neg at hc
      exact (rxq_reinit_loop_ids s.mask s.added _ s.removed s.ids rfl i).1
        (hout i hi (fun r h1 h2 => hc r h1 h2))
  · show (rxq_reinit_loop _ _ 0 0).1 = []
    rw [rxq_reinit_loop, if_neg (by omega)]

/-- Witness for C8 on the 4-slot ring with outstanding ids 100, 200, 300:
the callback sees exactly those, in order; the queue is zeroed, the slots
all bear the sentinel, and a second reinit reclaims nothing. -/
theorem rxq_reinit_spec_witness :
    (ef_vi_rxq_reinit rxq_reinit_ex).1 = [100, 200, 300] ∧
    (ef_vi_rxq_reinit rxq_reinit_ex).2.added = 0 ∧
    (ef_vi_rxq_reinit rxq_reinit_ex).2.removed = 0 ∧
    (ef_vi_rxq_reinit rxq_reinit_ex).2.ids 1 = EF_REQUEST_ID_MASK ∧
    (ef_vi_rxq_reinit (ef_vi_rxq_reinit rxq_reinit_ex).2).1 = [] := by
  have h := rxq_reinit_spec rxq_reinit_ex 2 (by decide) (by decide) ?hout
  case hout =>
    intro i hi hr
    have h3 : i ≤ 3 := hi
    interval_cases i
    · exact absurd (by decide : 0 &&& rxq_reinit_ex.mask = 0)
        (hr 0 (by decide) (by decide))
    · exact absurd (by decide : 1 &&& rxq_reinit_ex.mask = 1)
        (hr 1 (by decide) (by decide))
    · exact absurd (by decide : 2 &&& rxq_reinit_ex.mask = 2)
        (hr 2 (by decide) (by decide))
    · decide
  exact ⟨h.1.trans (by decide), h.2.1, h.2.2.1, h.2.2.2.1 1 (by decide), h.2.2.2.2⟩

/-- The word-burst loop advances the aperture by one word per 8 input
bytes, leaves the tail alone, and hands back the sub-word remainder. -/
theorem efct_tx_words_spec (l : List Nat) (tx : efct_tx_state) :
    (efct_tx_words tx l).1.aperture = tx.aperture + 8 * (l.length / 8) ∧
    (efct_tx_words tx l).1.tail = tx.tail ∧
    (efct_tx_words tx l).2.length = l.length % 8 := by
  suffices H : ∀ n (l : List Nat) (tx : efct_tx_state), l.length ≤ n →
      (efct_tx_words tx l).1.aperture = tx.aperture + 8 * (l.length / 8) ∧
      (efct_tx_words tx l).1.tail = tx.tail ∧
      (efct_tx_words tx l).2.length = l.length % 8 from
    H l.length l tx (Nat.le_refl _)
  intro n
  induction n with
  | zero =>
    intro l tx hl
    rw [efct_tx_words, if_neg (by omega)]
    have h0 : l.length = 0 := by omega
    simp [h0]
  | succ k ih =>
    intro l tx hl
    rw [efct_tx_words]
    by_cases h8 : 8 ≤ l.length
    · rw [if_pos h8]
      obtain ⟨h1, h2, h3⟩ := ih (l.drop 8) (efct_tx_word tx 0)
        (by simp only [List.length_drop]; omega)
      refine ⟨?_, ?_, ?_⟩
      · rw [h1]; simp only [efct_tx_word, List.length_drop]; omega
      · rw [h2]; rfl
      · rw [h3]; simp only [List.length_drop]; omega
    · rw [if_neg h8]
      exact ⟨show tx.aperture = tx.aperture + 8 * (l.length / 8) by omega, rfl,
        show l.length = l.length % 8 by omega⟩

/-- The trailing-byte loop only grows the tail. -/
theorem efct_tx_trailing_spec (l : List Nat) : ∀ tx : efct_tx_state,
    (efct_tx_trailing tx l).aperture = tx.aperture ∧
    (efct_tx_trailing tx l).tail = tx.tail ++ l := by
  induction l with
  | nil => intro tx; simp [efct_tx_trailing]
  | cons b rest ih =>
    intro tx
    obtain ⟨h1, h2⟩ := ih (efct_tx_tail_byte tx b)
    refine ⟨?_, ?_⟩
    · simpa [efct_tx_trailing, efct_tx_tail_byte] using h1
    · simpa [efct_tx_trailing, efct_tx_tail_byte] using h2

/-- The padding loop rounds an 8-byte-aligned aperture offset up to the
next 64-byte boundary. -/
theorem efct_tx_pad_spec (ap : Nat) (h8 : ap % 8 = 0) :
    efct_tx_pad 8 ap = 64 * ((ap + 63) / 64) := by
  simp only [efct_tx_pad, EFCT_TX_ALIGNMENT, beq_iff_eq]
  split_ifs <;> omega

/-- C1: an EFCT CTPIO transmit of payload length `L` that passes the space
check succeeds, records a descriptor length of `8 + L` rounded up to the
next multiple of 64 bytes, stores the request id, advances the aperture
byte counter `ct_added` by that length, and increments `added` by exactly
one.  The alignment hypotheses are the CTPIO invariants: the aperture size
and the running byte counter are multiples of 64 (every completed packet
advances `ct_added` by a multiple of 64, as this very theorem shows). -/
theorem efct_transmit_desc_len_spec (A : Nat) (q : efct_txq)
    (qs : efct_txq_state) (base : List Nat) (dma_id : Nat)
    (hA : 64 ∣ A) (hct : 64 ∣ qs.ct_added)
    (hchk : efct_tx_check q qs base.length = true) :
    (efct_ef_vi_transmit A q qs base dma_id).1 = 0 ∧
    (efct_ef_vi_transmit A q qs base dma_id).2.1.desc_len
        (qs.added &&& q.mask) =
      64 * ((EFCT_TX_HEADER_BYTES + base.length + 63) / 64) ∧
    (efct_ef_vi_transmit A q qs base dma_id).2.1.ids (qs.added &&& q.mask) =
      dma_id ∧
    (efct_ef_vi_transmit A q qs base dma_id).2.2.ct_added =
      qs.ct_added + 64 * ((EFCT_TX_HEADER_BYTES + base.length + 63) / 64) ∧
    (efct_ef_vi_transmit A q qs base dma_id).2.2.added = qs.added + 1 := by
  obtain ⟨hw1, hw2, hw3⟩ := efct_tx_words_spec base ⟨qs.ct_added % A + 8, []⟩
  obtain ⟨ht1, ht2⟩ :=
    efct_tx_trailing_spec (efct_tx_words ⟨qs.ct_added % A + 8, []⟩ base).2
      (efct_tx_words ⟨qs.ct_added % A + 8, []⟩ base).1
  have hstart : (64 : Nat) ∣ qs.ct_added % A := (Nat.dvd_mod_iff hA).mpr hct
  have key : efct_ef_vi_transmit A q qs base dma_id =
      (0, efct_tx_complete A q qs
            (efct_tx_trailing (efct_tx_words ⟨qs.ct_added % A + 8, []⟩ base).1
              (efct_tx_words ⟨qs.ct_added % A + 8, []⟩ base).2) dma_id) := by
    rw [efct_ef_vi_transmit, if_neg (by simp [hchk])]
    rfl
  have htl : (efct_tx_trailing (efct_tx_words ⟨qs.ct_added % A + 8, []⟩ base).1
      (efct_tx_words ⟨qs.ct_added % A + 8, []⟩ base).2).tail.length =
      base.length % 8 := by
    rw [ht2, hw2]
    simpa using hw3
  have hap : (efct_tx_trailing (efct_tx_words ⟨qs.ct_added % A + 8, []⟩ base).1
      (efct_tx_words ⟨qs.ct_added % A + 8, []⟩ base).2).aperture =
      qs.ct_added % A + 8 + 8 * (base.length / 8) := by
    rw [ht1, hw1]
  rw [key]
  simp only [efct_tx_complete]
  by_cases hrem : base.length % 8 = 0
  · rw [if_neg (by rw [htl, hrem]; simp)]
    rw [hap, efct_tx_pad_spec _ (by omega)]
    refine ⟨?_, ?_, ?_, ?_, ?_⟩ <;>
      first
        | trivial
        | (simp only [Function.update_same, EFCT_TX_HEADER_BYTES]; try omega)
  · rw [if_pos (by rw [htl]; simpa using hrem)]
    simp only [efct_tx_word, hap]
    rw [efct_tx_pad_spec _ (by omega)]
    refine ⟨?_, ?_, ?_, ?_, ?_⟩ <;>
      first
        | trivial
        | (simp only [Function.update_same, EFCT_TX_HEADER_BYTES]; try omega)

/-- Witness for C1: the spec's seed case, a 100-byte transmit on a fresh
queue: header 8 + payload 100, padded to 128; `desc[0].len = 128`,
`ct_added = 128`, `added` goes from 0 to 1. -/
theorem efct_transmit_desc_len_spec_witness :
    efct_tx_check efct_txq_ex efct_txq_state_zero
      (List.replicate 100 0).length = true ∧
    (efct_ef_vi_transmit 4096 efct_txq_ex efct_txq_state_zero
        (List.replicate 100 0) 5).2.1.desc_len
        (efct_txq_state_zero.added &&& efct_txq_ex.mask) =
      64 * ((EFCT_TX_HEADER_BYTES + (List.replicate 100 0).length + 63) / 64) ∧
    (efct_ef_vi_transmit 4096 efct_txq_ex efct_txq_state_zero
        (List.replicate 100 0) 5).2.2.ct_added =
      efct_txq_state_zero.ct_added +
        64 * ((EFCT_TX_HEADER_BYTES + (List.replicate 100 0).length + 63) / 64) ∧
    (efct_ef_vi_transmit 4096 efct_txq_ex efct_txq_state_zero
        (List.replicate 100 0) 5).2.2.added = efct_txq_state_zero.added + 1 ∧
    64 * ((EFCT_TX_HEADER_BYTES + (List.replicate 100 0).length + 63) / 64) = 128 ∧
    efct_txq_state_zero.added &&& efct_txq_ex.mask = 0 :=
  have h := efct_transmit_desc_len_spec 4096 efct_txq_ex efct_txq_state_zero
    (List.replicate 100 0) 5 (by decide) (by decide) (by decide)
  ⟨by decide, h.2.1, h.2.2.2.1, h.2.2.2.2, by decide, by decide⟩

/-- The wrapping distance `(s + m - r) % m` (from residue `r` up to residue
`s`) is zero exactly at the target. -/
theorem mod_dist_zero_iff (m s r : Nat) (hs : s < m) (hr : r < m) :
    (s + m - r) % m = 0 ↔ r = s := by
  constructor
  · intro h
    rcases le_or_lt r s with hle | hlt
    · have e : s + m - r = (s - r) + m := by omega
      rw [e, Nat.add_mod_right, Nat.mod_eq_of_lt (show s - r < m by omega)] at h
      omega
    · have e : s + m - r = m - (r - s) := by omega
      rw [e, Nat.mod_eq_of_lt (show m - (r - s) < m by omega)] at h
      omega
  · intro h
    have e : s + m - r = m := by omega
    rw [e, Nat.mod_self]

/-- Advancing the source residue by one shrinks a non-zero wrapping
distance by one. -/
theorem mod_dist_succ (m s r : Nat) (hs : s < m) (hr : r < m) (hne : r ≠ s) :
    (s + m - (r + 1) % m) % m = (s + m - r) % m - 1 := by
  rcases Nat.lt_or_ge (r + 1) m with h1 | h1
  · rw [Nat.mod_eq_of_lt h1]
    rcases Nat.lt_or_ge r s with hlt | hge
    · have e1 : s + m - r = (s - r) + m := by omega
      have e2 : s + m - (r + 1) = (s - r - 1) + m := by omega
      rw [e1, e2, Nat.add_mod_right, Nat.add_mod_right,
        Nat.mod_eq_of_lt (show s - r < m by omega),
        Nat.mod_eq_of_lt (show s - r - 1 < m by omega)]
    · have e1 : s + m - r = m - (r - s) := by omega
      have e2 : s + m - (r + 1) = m - (r + 1 - s) := by omega
      rw [e1, e2, Nat.mod_eq_of_lt (show m - (r - s) < m by omega),
        Nat.mod_eq_of_lt (show m - (r + 1 - s) < m by omega)]
      omega
  · have hrm : r + 1 = m := by omega
    rw [hrm, Nat.mod_self]
    have e1 : s + m - r = s + 1 := by omega
    rw [e1, Nat.sub_zero, Nat.add_mod_right,
      Nat.mod_eq_of_lt hs, Nat.mod_eq_of_lt (show s + 1 < m by omega)]
    omega

/-- Walking the wrapping distance from residue `r` lands on `s`. -/
theorem mod_dist_add (m s r : Nat) (hs : s < m) (hr : r < m) :
    (r + (s + m - r) % m) % m = s := by
  rcases le_or_lt r s with hle | hlt
  · have e : s + m - r = (s - r) + m := by omega
    rw [e, Nat.add_mod_right, Nat.mod_eq_of_lt (show s - r < m by omega),
      show r + (s - r) = s by omega, Nat.mod_eq_of_lt hs]
  · have e : s + m - r = m - (r - s) := by omega
    rw [e, Nat.mod_eq_of_lt (show m - (r - s) < m by omega),
      show r + (m - (r - s)) = s + m by omega, Nat.add_mod_right,
      Nat.mod_eq_of_lt hs]

/-- The reconciliation loop of `efct_tx_handle_event`, run with enough
fuel, advances `previous` by the wrapping distance from its residue to
`(seq + 1) mod 2 ^ W` and accumulates the descriptor lengths of exactly the
slots it walks over. -/
theorem efct_tx_handle_event_loop_spec (q : efct_txq) (W seq : Nat) :
    ∀ fuel (qs : efct_txq_state),
      ((seq + 1) % 2 ^ W + 2 ^ W - qs.previous % 2 ^ W) % 2 ^ W < fuel →
      efct_tx_handle_event_loop q (2 ^ W - 1) seq fuel qs =
        { qs with
            previous := qs.previous +
              ((seq + 1) % 2 ^ W + 2 ^ W - qs.previous % 2 ^ W) % 2 ^ W,
            ct_removed := qs.ct_removed +
              ∑ j ∈ Finset.range
                (((seq + 1) % 2 ^ W + 2 ^ W - qs.previous % 2 ^ W) % 2 ^ W),
                q.desc_len ((qs.previous + j) &&& q.mask) } := by
  have hm : 0 < 2 ^ W := Nat.pos_pow_of_pos W (by omega)
  intro fuel
  induction fuel with
  | zero => intro qs h; omega
  | succ k ih =>
    intro qs h
    have hs : (seq + 1) % 2 ^ W < 2 ^ W := Nat.mod_lt _ hm
    have hr : qs.previous % 2 ^ W < 2 ^ W := Nat.mod_lt _ hm
    rw [efct_tx_handle_event_loop]
    have hmask : ∀ x : Nat, x &&& (2 ^ W - 1) = x % 2 ^ W := fun x =>
      Nat.and_pow_two_sub_one_eq_mod x W
    by_cases hcond : qs.previous % 2 ^ W = (seq + 1) % 2 ^ W
    · rw [if_neg (by rw [hmask, hmask]; simpa using hcond)]
      have hd : ((seq + 1) % 2 ^ W + 2 ^ W - qs.previous % 2 ^ W) % 2 ^ W = 0 :=
        (mod_dist_zero_iff _ _ _ hs hr).mpr hcond
      rw [hd]
      simp
    · rw [if_pos (by rw [hmask, hmask]; simpa using hcond)]
      have hstep : ((seq + 1) % 2 ^ W + 2 ^ W - (qs.previous + 1) % 2 ^ W) % 2 ^ W =
          ((seq + 1) % 2 ^ W + 2 ^ W - qs.previous % 2 ^ W) % 2 ^ W - 1 := by
        rw [Nat.add_mod qs.previous 1,
          Nat.mod_eq_of_lt (show 1 < 2 ^ W by
            rcases Nat.lt_or_ge 1 (2 ^ W) with h2 | h2
            · exact h2
            · exfalso
              have : 2 ^ W = 1 := by omega
              rw [this] at hr hs
              omega)]
        exact mod_dist_succ _ _ _ hs hr hcond
      have hdpos : 0 < ((seq + 1) % 2 ^ W + 2 ^ W - qs.previous % 2 ^ W) % 2 ^ W := by
        rcases Nat.eq_zero_or_pos
          (((seq + 1) % 2 ^ W + 2 ^ W - qs.previous % 2 ^ W) % 2 ^ W) with h0 | h0
        · exact absurd ((mod_dist_zero_iff _ _ _ hs hr).mp h0) hcond
        · exact h0
      have hlt : ((seq + 1) % 2 ^ W + 2 ^ W - (qs.previous + 1) % 2 ^ W)
          % 2 ^ W < k := by rw [hstep]; omega
      have ihs := ih { qs with
          ct_removed := qs.ct_removed + q.desc_len (qs.previous &&& q.mask),
          previous := qs.previous + 1 } (by simpa using hlt)
      simp only at ihs
      rw [ihs, hstep]
      simp only [efct_txq_state.mk.injEq, true_and, and_true]
      constructor
      · omega
      · obtain ⟨d, hd⟩ : ∃ d, ((seq + 1) % 2 ^ W + 2 ^ W - qs.previous % 2 ^ W)
            % 2 ^ W = d + 1 :=
          ⟨((seq + 1) % 2 ^ W + 2 ^ W - qs.previous % 2 ^ W) % 2 ^ W - 1, by omega⟩
        rw [hd]
        simp only [Nat.add_sub_cancel]
        rw [Finset.sum_range_succ' (fun j => q.desc_len ((qs.previous + j) &&& q.mask)) d]
        have hsh : ∀ j, qs.previous + 1 + j = qs.previous + (j + 1) := by omega
        simp only [hsh, Nat.add_zero]
        omega

/-- C2: handling a TX completion event carrying sequence `seq` advances
`previous` by the wrapping distance to `(seq + 1) mod 2 ^ W` — i.e. until
`(previous & seq_mask) = ((seq + 1) & seq_mask)` — adding
`desc[previous & mask].len` to `ct_removed` at each of those steps, and
emits one TX event whose `desc_id` is the final `previous` (and whose
`q_id` is the event label).  With `seq = 3` and `previous = 0` the distance
is 4: `previous` becomes 4 and `ct_removed` gains `desc[0..3].len`. -/
theorem efct_tx_handle_event_spec (W : Nat) (q : efct_txq) (ev : efct_tx_event)
    (qs : efct_txq_state) :
    (efct_tx_handle_event W q ev qs).1.previous =
      qs.previous + ((ev.seq + 1) % 2 ^ W + 2 ^ W - qs.previous % 2 ^ W) % 2 ^ W ∧
    (efct_tx_handle_event W q ev qs).1.previous &&& (2 ^ W - 1) =
      (ev.seq + 1) &&& (2 ^ W - 1) ∧
    (efct_tx_handle_event W q ev qs).1.ct_removed =
      qs.ct_removed + ∑ j ∈ Finset.range
        (((ev.seq + 1) % 2 ^ W + 2 ^ W - qs.previous % 2 ^ W) % 2 ^ W),
        q.desc_len ((qs.previous + j) &&& q.mask) ∧
    (efct_tx_handle_event W q ev qs).1.added = qs.added ∧
    (efct_tx_handle_event W q ev qs).1.ct_added = qs.ct_added ∧
    (efct_tx_handle_event W q ev qs).2.desc_id =
      (efct_tx_handle_event W q ev qs).1.previous ∧
    (efct_tx_handle_event W q ev qs).2.q_id = ev.label := by
  have hm : 0 < 2 ^ W := Nat.pos_pow_of_pos W (by omega)
  have hs : (ev.seq + 1) % 2 ^ W < 2 ^ W := Nat.mod_lt _ hm
  have hr : qs.previous % 2 ^ W < 2 ^ W := Nat.mod_lt _ hm
  have hfuel : (2 ^ W - 1) + 1 = 2 ^ W := by omega
  have key : efct_tx_handle_event W q ev qs =
      (efct_tx_handle_event_loop q (2 ^ W - 1) ev.seq (2 ^ W) qs,
       { q_id := ev.label,
         desc_id := (efct_tx_handle_event_loop q (2 ^ W - 1) ev.seq (2 ^ W) qs).previous }) := by
    rw [efct_tx_handle_event]
    simp only [Nat.one_shiftLeft, hfuel]
  rw [key,
    efct_tx_handle_event_loop_spec q W ev.seq (2 ^ W) qs (Nat.mod_lt _ hm)]
  refine ⟨rfl, ?_, rfl, rfl, rfl, rfl, rfl⟩
  rw [Nat.and_pow_two_sub_one_eq_mod, Nat.and_pow_two_sub_one_eq_mod,
    Nat.add_mod qs.previous]
  have hd : (((ev.seq + 1) % 2 ^ W + 2 ^ W - qs.previous % 2 ^ W) % 2 ^ W)
      % 2 ^ W = ((ev.seq + 1) % 2 ^ W + 2 ^ W - qs.previous % 2 ^ W) % 2 ^ W :=
    Nat.mod_mod_of_dvd _ dvd_rfl
  rw [hd, mod_dist_add _ _ _ hs hr]

/-- Masking off the cached sentinel is reduction mod `2 ^ 31`. -/
theorem rxq_ptr_to_pkt_id_eq_mod (x : Nat) : rxq_ptr_to_pkt_id x = x % 2 ^ 31 := by
  rw [rxq_ptr_to_pkt_id, show (0x7fffffff : Nat) = 2 ^ 31 - 1 by norm_num,
    Nat.and_pow_two_sub_one_eq_mod]

/-- The in-superbuffer index is reduction mod `2 ^ 16`. -/
theorem pkt_id_to_index_eq_mod (x : Nat) :
    pkt_id_to_index_in_superbuf x = x % 2 ^ 16 := by
  rw [pkt_id_to_index_in_superbuf, PKTS_PER_SUPERBUF_BITS, Nat.one_shiftLeft,
    Nat.and_pow_two_sub_one_eq_mod]

/-- The global superbuffer index is division by `2 ^ 16`. -/
theorem pkt_id_to_global_eq_div (x : Nat) :
    pkt_id_to_global_superbuf_ix x = x / 2 ^ 16 := by
  rw [pkt_id_to_global_superbuf_ix, PKTS_PER_SUPERBUF_BITS,
    Nat.shiftRight_eq_div_pow]

/-- Decoding the synthetic `next` pointer `pkt_id | (sentinel << 31)` built
by `rx_rollover`: stripping bit 31 recovers the packet id, whose index is 0
(or 1 after `+ 1`) and whose global superbuffer index is `g`. -/
theorem next_ptr_decode (g b : Nat) (hg : g < 2 ^ 15) (hb : b ≤ 1) :
    rxq_ptr_to_pkt_id ((g <<< PKTS_PER_SUPERBUF_BITS) ||| (b <<< 31)) =
      g <<< PKTS_PER_SUPERBUF_BITS ∧
    rxq_ptr_to_pkt_id (((g <<< PKTS_PER_SUPERBUF_BITS) ||| (b <<< 31)) + 1) =
      g <<< PKTS_PER_SUPERBUF_BITS + 1 ∧
    pkt_id_to_index_in_superbuf (g <<< PKTS_PER_SUPERBUF_BITS) = 0 ∧
    pkt_id_to_index_in_superbuf (g <<< PKTS_PER_SUPERBUF_BITS + 1) = 1 ∧
    pkt_id_to_global_superbuf_ix (g <<< PKTS_PER_SUPERBUF_BITS) = g ∧
    pkt_id_to_global_superbuf_ix (g <<< PKTS_PER_SUPERBUF_BITS + 1) = g := by
  have hsl : g <<< PKTS_PER_SUPERBUF_BITS = g * 2 ^ 16 := by
    rw [PKTS_PER_SUPERBUF_BITS, Nat.shiftLeft_eq]
  have hor : (g <<< PKTS_PER_SUPERBUF_BITS) ||| (b <<< 31) =
      g * 2 ^ 16 + b * 2 ^ 31 := by
    rcases Nat.le_one_iff_eq_zero_or_eq_one.mp hb with rfl | rfl
    · rw [hsl, Nat.zero_shiftLeft, Nat.or_zero]
      omega
    · rw [hsl, Nat.one_shiftLeft,
        lor_eq_add_of_and_eq_zero (and_two_pow_eq_zero_of_lt (by nlinarith))]
      omega
  rw [hor, hsl, rxq_ptr_to_pkt_id_eq_mod, rxq_ptr_to_pkt_id_eq_mod,
    pkt_id_to_index_eq_mod, pkt_id_to_index_eq_mod,
    pkt_id_to_global_eq_div, pkt_id_to_global_eq_div]
  have hb2 : b * 2 ^ 31 = 0 ∨ b * 2 ^ 31 = 2 ^ 31 := by
    rcases Nat.le_one_iff_eq_zero_or_eq_one.mp hb with rfl | rfl <;> omega
  refine ⟨?_, ?_, ?_, ?_, ?_, ?_⟩ <;> omega

/-- C3: `efct_vi_attach_rxq` seeds `rxq_ptr.next` with in-superbuffer index
`1 + packets_per_superbuffer`; that index is strictly greater than
`packets_per_superbuffer` (the startup test of `rx_rollover`) and at least
`packets_per_superbuffer` (the rollover trigger of `efct_poll_rx`).  A
rollover from a startup-seeded state sets `prev` to the new superbuffer's
packet 0 and `next` to its packet 1 (skipping the first metadata slot),
while a rollover from a regular exhausted state (`index ≤
packets_per_superbuffer`, as produced by poll's `≥` trigger at equality)
sets `next` to packet 0 and leaves `prev` alone.  The hypotheses are the
packet-id layout bounds: at most 8 queues, fill entries are 16-bit with
their id below `CI_EFCT_MAX_SUPERBUFS` (the code asserts the latter). -/
theorem efct_attach_rollover_startup_spec
    (vi : efct_rx_vi) (superbuf_bytes resource_id : Nat)
    (shm : efab_efct_rxq_uk_shm) (ix : Nat) (vi' : efct_rx_vi)
    (hat : efct_vi_attach_rxq vi superbuf_bytes resource_id shm = some (ix, vi'))
    (hpk : superbuf_bytes / EFCT_PKT_STRIDE + 1 < 2 ^ 16)
    (w : efct_rx_vi) (qid : Nat) (hq : qid < 8)
    (hne : ¬ (w.efct_rxq qid).shm.rxq.added = (w.efct_rxq qid).shm.rxq.removed)
    (hrc : fill_ring_entry w qid < 2 ^ 16)
    (hsb : fill_ring_entry w qid &&& CI_EFCT_Q_SUPERBUF_ID_MASK
      < CI_EFCT_MAX_SUPERBUFS) :
    pkt_id_to_index_in_superbuf ((vi'.rxq_ptr ix).next) =
      1 + (vi'.efct_rxq ix).superbuf_pkts ∧
    pkt_id_to_index_in_superbuf ((vi'.rxq_ptr ix).next) >
      (vi'.efct_rxq ix).superbuf_pkts ∧
    pkt_id_to_index_in_superbuf (rxq_ptr_to_pkt_id ((vi'.rxq_ptr ix).next)) ≥
      (vi'.efct_rxq ix).superbuf_pkts ∧
    (pkt_id_to_index_in_superbuf ((w.rxq_ptr qid).next) >
        (w.efct_rxq qid).superbuf_pkts →
      (rx_rollover w qid).1 = 0 ∧
      pkt_id_to_index_in_superbuf
        (rxq_ptr_to_pkt_id (((rx_rollover w qid).2.rxq_ptr qid).prev)) = 0 ∧
      pkt_id_to_global_superbuf_ix
        (rxq_ptr_to_pkt_id (((rx_rollover w qid).2.rxq_ptr qid).prev)) =
        qid * CI_EFCT_MAX_SUPERBUFS +
          (fill_ring_entry w qid &&& CI_EFCT_Q_SUPERBUF_ID_MASK) ∧
      pkt_id_to_index_in_superbuf
        (rxq_ptr_to_pkt_id (((rx_rollover w qid).2.rxq_ptr qid).next)) = 1 ∧
      pkt_id_to_global_superbuf_ix
        (rxq_ptr_to_pkt_id (((rx_rollover w qid).2.rxq_ptr qid).next)) =
        qid * CI_EFCT_MAX_SUPERBUFS +
          (fill_ring_entry w qid &&& CI_EFCT_Q_SUPERBUF_ID_MASK)) ∧
    (pkt_id_to_index_in_superbuf ((w.rxq_ptr qid).next) ≤
        (w.efct_rxq qid).superbuf_pkts →
      (rx_rollover w qid).1 = 0 ∧
      pkt_id_to_index_in_superbuf
        (rxq_ptr_to_pkt_id (((rx_rollover w qid).2.rxq_ptr qid).next)) = 0 ∧
      pkt_id_to_global_superbuf_ix
        (rxq_ptr_to_pkt_id (((rx_rollover w qid).2.rxq_ptr qid).next)) =
        qid * CI_EFCT_MAX_SUPERBUFS +
          (fill_ring_entry w qid &&& CI_EFCT_Q_SUPERBUF_ID_MASK) ∧
      ((rx_rollover w qid).2.rxq_ptr qid).prev = (w.rxq_ptr qid).prev) := by
  have hmax : CI_EFCT_MAX_SUPERBUFS = 1024 := rfl
  -- the attach conjuncts
  have hattach : (vi'.rxq_ptr ix).next = 1 + superbuf_bytes / EFCT_PKT_STRIDE ∧
      (vi'.efct_rxq ix).superbuf_pkts = superbuf_bytes / EFCT_PKT_STRIDE := by
    rw [efct_vi_attach_rxq] at hat
    rcases hfind : (List.range vi.max_efct_rxq).find?
        (fun ix => ¬ efct_rxq_is_active vi ix) with _ | ix₀
    · rw [hfind] at hat; exact absurd hat (by simp)
    · rw [hfind] at hat
      simp only [Option.some.injEq, Prod.mk.injEq] at hat
      obtain ⟨rfl, rfl⟩ := hat
      constructor
      · simp [Function.update_same]
      · simp [Function.update_same]
  obtain ⟨ha1, ha2⟩ := hattach
  -- the rollover cases
  set rc := fill_ring_entry w qid with hrcdef
  have hsn : superbuf_next (w.efct_rxq qid) =
      (some rc, { w.efct_rxq qid with
        shm.rxq.removed := (w.efct_rxq qid).shm.rxq.removed + 1 }) := by
    rw [superbuf_next, if_neg (by simpa using hne)]
    rfl
  have hb : rc >>> 15 ≤ 1 := by
    rw [Nat.shiftRight_eq_div_pow]
    omega
  have hg : qid * CI_EFCT_MAX_SUPERBUFS + (rc &&& CI_EFCT_Q_SUPERBUF_ID_MASK)
      < 2 ^ 15 := by
    rw [hmax] at hsb ⊢
    omega
  obtain ⟨hd1, hd2, hd3, hd4, hd5, hd6⟩ := next_ptr_decode
    (qid * CI_EFCT_MAX_SUPERBUFS + (rc &&& CI_EFCT_Q_SUPERBUF_ID_MASK))
    (rc >>> 15) hg hb
  refine ⟨?_, ?_, ?_, fun hstart => ?_, fun hnorm => ?_⟩
  · rw [ha1, ha2, pkt_id_to_index_eq_mod]
    omega
  · rw [ha1, ha2, pkt_id_to_index_eq_mod]
    omega
  · rw [ha1, ha2, rxq_ptr_to_pkt_id_eq_mod, pkt_id_to_index_eq_mod]
    omega
  · rw [rx_rollover, hsn]
    simp only
    rw [if_pos hstart]
    simp only [Function.update_same]
    exact ⟨trivial, by rw [hd1, hd3], by rw [hd1, hd5], by rw [hd2, hd4],
      by rw [hd2, hd6]⟩
  · rw [rx_rollover, hsn]
    simp only
    rw [if_neg (by omega)]
    simp only [Function.update_same]
    exact ⟨trivial, by rw [hd1, hd3], by rw [hd1, hd5], trivial⟩

/-- Witness for C3: attaching to the detached VI (2-packet superbuffers)
seeds index 3 = 1 + 2; a normal rollover on the one-filled VI (pointer at
packet 0 of the current buffer) lands `next` on packet 0 of superbuffer 5. -/
theorem efct_attach_rollover_startup_spec_witness :
    pkt_id_to_index_in_superbuf ((efct_rx_vi_attached.rxq_ptr 0).next) = 3 ∧
    (rx_rollover efct_rx_vi_ex 0).1 = 0 ∧
    pkt_id_to_index_in_superbuf
      (rxq_ptr_to_pkt_id (((rx_rollover efct_rx_vi_ex 0).2.rxq_ptr 0).next)) = 0 ∧
    pkt_id_to_global_superbuf_ix
      (rxq_ptr_to_pkt_id (((rx_rollover efct_rx_vi_ex 0).2.rxq_ptr 0).next)) = 5 := by
  have h := efct_attach_rollover_startup_spec efct_rx_vi_detached 4096 1
    efct_shm_empty 0 efct_rx_vi_attached rfl (by decide)
    efct_rx_vi_ex 0 (by decide) (by decide) (by decide) (by decide)
  obtain ⟨h1, -, -, -, h5⟩ := h
  obtain ⟨hr0, hrn, hrg, -⟩ := h5 (by decide)
  exact ⟨h1.trans (by decide), hr0, hrn, hrg.trans (by decide)⟩

/-- `rx_rollover` never touches the VI-level `added`/`removed` counters. -/
theorem rx_rollover_counters (vi : efct_rx_vi) (qid : Nat) :
    (rx_rollover vi qid).2.added = vi.added ∧
    (rx_rollover vi qid).2.removed = vi.removed := by
  rw [rx_rollover]
  rcases hsn : superbuf_next (vi.efct_rxq qid) with ⟨o, rxq'⟩
  cases o
  · exact ⟨rfl, rfl⟩
  · simp only
    split_ifs <;> exact ⟨rfl, rfl⟩

/-- The header/emit tail preserves the VI counters up to one `removed`
increment per emitted event, given that the remaining iterations do. -/
theorem efct_poll_rx_iter_hdr_counts (qid : Nat)
    (cont : efct_rx_vi → List ef_event_rx × efct_rx_vi)
    (hcont : ∀ w, (cont w).2.added = w.added ∧
      (cont w).2.removed = w.removed + (cont w).1.length)
    (vi : efct_rx_vi) :
    (efct_poll_rx_iter_hdr qid cont vi).2.added = vi.added ∧
    (efct_poll_rx_iter_hdr qid cont vi).2.removed =
      vi.removed + (efct_poll_rx_iter_hdr qid cont vi).1.length := by
  unfold efct_poll_rx_iter_hdr
  rcases hh : efct_rx_next_header vi qid with _ | header
  · exact ⟨rfl, by simp⟩
  · simp only
    obtain ⟨h1, h2⟩ := hcont { vi with
      rxq_ptr := Function.update vi.rxq_ptr qid
        ⟨(vi.rxq_ptr qid).next + 1, (vi.rxq_ptr qid).next⟩,
      removed := vi.removed + 1 }
    simp only at h1 h2
    refine ⟨h1, ?_⟩
    rw [h2]
    simp only [List.length_cons]
    omega

/-- The refresh-then-emit iteration preserves the VI counters up to one
`removed` increment per emitted event. -/
theorem efct_poll_rx_iter_counts (qid : Nat) (refresh_rc : Int)
    (cont : efct_rx_vi → List ef_event_rx × efct_rx_vi)
    (hcont : ∀ w, (cont w).2.added = w.added ∧
      (cont w).2.removed = w.removed + (cont w).1.length)
    (vi : efct_rx_vi) :
    (efct_poll_rx_iter qid refresh_rc cont vi).2.added = vi.added ∧
    (efct_poll_rx_iter qid refresh_rc cont vi).2.removed =
      vi.removed + (efct_poll_rx_iter qid refresh_rc cont vi).1.length := by
  unfold efct_poll_rx_iter
  by_cases h1 : (vi.efct_rxq qid).shm.config_generation ≠
      (vi.efct_rxq qid).config_generation
  · rw [if_pos h1]
    simp only
    by_cases h2 : (superbuf_config_refresh (vi.efct_rxq qid) refresh_rc).1 < 0
    · rw [if_pos h2]
      exact ⟨rfl, by simp⟩
    · rw [if_neg h2]
      have h := efct_poll_rx_iter_hdr_counts qid cont hcont { vi with efct_rxq := Function.update vi.efct_rxq qid (superbuf_config_refresh (vi.efct_rxq qid) refresh_rc).2 }
      exact ⟨h.1.trans rfl, h.2.trans rfl⟩
  · rw [if_neg h1]
    exact efct_poll_rx_iter_hdr_counts qid cont hcont vi

/-- Per emitted event the poll loop increments `removed` exactly once and
never touches `added`. -/
theorem efct_poll_rx_loop_counts (qid superbuf_pkts : Nat) (refresh_rc : Int) :
    ∀ n (vi : efct_rx_vi),
      (efct_poll_rx_loop qid superbuf_pkts refresh_rc n vi).2.added = vi.added ∧
      (efct_poll_rx_loop qid superbuf_pkts refresh_rc n vi).2.removed =
        vi.removed + (efct_poll_rx_loop qid superbuf_pkts refresh_rc n vi).1.length := by
  intro n
  induction n with
  | zero => intro vi; exact ⟨rfl, by simp [efct_poll_rx_loop]⟩
  | succ k ih =>
    intro vi
    rw [efct_poll_rx_loop]
    by_cases h1 : pkt_id_to_index_in_superbuf
        (rxq_ptr_to_pkt_id ((vi.rxq_ptr qid).next)) ≥ superbuf_pkts
    · rw [if_pos h1]
      simp only
      by_cases h2 : (rx_rollover vi qid).1 < 0
      · rw [if_pos h2]
        exact ⟨rfl, by simp⟩
      · rw [if_neg h2]
        obtain ⟨hra, hrr⟩ := rx_rollover_counters vi qid
        obtain ⟨hi1, hi2⟩ := efct_poll_rx_iter_counts qid refresh_rc _ ih
          (rx_rollover vi qid).2
        exact ⟨hi1.trans hra, by rw [hi2, hrr]⟩
    · rw [if_neg h1]
      exact efct_poll_rx_iter_counts qid refresh_rc _ ih vi

/-- `superbuf_next` on an empty fill ring (`added = removed`) returns
`-EAGAIN` (modelled `none`) with the queue untouched. -/
theorem superbuf_next_empty (rxq : ef_vi_efct_rxq)
    (h : rxq.shm.rxq.added = rxq.shm.rxq.removed) :
    superbuf_next rxq = (none, rxq) := by
  rw [superbuf_next, if_pos (by simpa using h)]

/-- `rx_rollover` on an empty fill ring returns `-EAGAIN` with the whole
VI state untouched. -/
theorem rx_rollover_empty (vi : efct_rx_vi) (qid : Nat)
    (h : (vi.efct_rxq qid).shm.rxq.added = (vi.efct_rxq qid).shm.rxq.removed) :
    rx_rollover vi qid = (-EAGAIN, vi) := by
  rw [rx_rollover, superbuf_next_empty _ h]

/-- The header/emit tail changes neither the shared state nor the refcount
table, provided the remaining iterations do not. -/
theorem efct_poll_rx_iter_hdr_shm (qid : Nat)
    (cont : efct_rx_vi → List ef_event_rx × efct_rx_vi)
    (hcont : ∀ w, (w.efct_rxq qid).shm.rxq.added = (w.efct_rxq qid).shm.rxq.removed →
      ((cont w).2.efct_rxq qid).shm = (w.efct_rxq qid).shm ∧
      (cont w).2.refcnt = w.refcnt)
    (vi : efct_rx_vi)
    (hemp : (vi.efct_rxq qid).shm.rxq.added = (vi.efct_rxq qid).shm.rxq.removed) :
    ((efct_poll_rx_iter_hdr qid cont vi).2.efct_rxq qid).shm = (vi.efct_rxq qid).shm ∧
    (efct_poll_rx_iter_hdr qid cont vi).2.refcnt = vi.refcnt := by
  unfold efct_poll_rx_iter_hdr
  rcases hh : efct_rx_next_header vi qid with _ | header
  · exact ⟨rfl, rfl⟩
  · simp only
    exact hcont { vi with
      rxq_ptr := Function.update vi.rxq_ptr qid
        ⟨(vi.rxq_ptr qid).next + 1, (vi.rxq_ptr qid).next⟩,
      removed := vi.removed + 1 } hemp

/-- The refresh-then-emit iteration changes neither the shared state nor
the refcount table (the refresh recaches only the in-VI generation). -/
theorem efct_poll_rx_iter_shm (qid : Nat) (refresh_rc : Int)
    (cont : efct_rx_vi → List ef_event_rx × efct_rx_vi)
    (hcont : ∀ w, (w.efct_rxq qid).shm.rxq.added = (w.efct_rxq qid).shm.rxq.removed →
      ((cont w).2.efct_rxq qid).shm = (w.efct_rxq qid).shm ∧
      (cont w).2.refcnt = w.refcnt)
    (vi : efct_rx_vi)
    (hemp : (vi.efct_rxq qid).shm.rxq.added = (vi.efct_rxq qid).shm.rxq.removed) :
    ((efct_poll_rx_iter qid refresh_rc cont vi).2.efct_rxq qid).shm =
      (vi.efct_rxq qid).shm ∧
    (efct_poll_rx_iter qid refresh_rc cont vi).2.refcnt = vi.refcnt := by
  unfold efct_poll_rx_iter
  by_cases h1 : (vi.efct_rxq qid).shm.config_generation ≠
      (vi.efct_rxq qid).config_generation
  · rw [if_pos h1]
    simp only
    have hs : (({ vi with efct_rxq := Function.update vi.efct_rxq qid (superbuf_config_refresh (vi.efct_rxq qid) refresh_rc).2 } : efct_rx_vi).efct_rxq qid).shm = (vi.efct_rxq qid).shm := by
      simp [superbuf_config_refresh]
    by_cases h2 : (superbuf_config_refresh (vi.efct_rxq qid) refresh_rc).1 < 0
    · rw [if_pos h2]
      exact ⟨hs, rfl⟩
    · rw [if_neg h2]
      obtain ⟨g1, g2⟩ := efct_poll_rx_iter_hdr_shm qid cont hcont { vi with efct_rxq := Function.update vi.efct_rxq qid (superbuf_config_refresh (vi.efct_rxq qid) refresh_rc).2 } (by rw [hs] ; exact hemp)
      exact ⟨g1.trans hs, g2⟩
  · rw [if_neg h1]
    exact efct_poll_rx_iter_hdr_shm qid cont hcont vi hemp

/-- With an empty fill ring the poll loop preserves the shared state and
the refcount table, and returns immediately (no events, state untouched)
whenever a rollover is needed at entry. -/
theorem efct_poll_rx_loop_empty_fill (qid superbuf_pkts : Nat) (refresh_rc : Int) :
    ∀ n (vi : efct_rx_vi),
      (vi.efct_rxq qid).shm.rxq.added = (vi.efct_rxq qid).shm.rxq.removed →
      (((efct_poll_rx_loop qid superbuf_pkts refresh_rc n vi).2.efct_rxq qid).shm =
          (vi.efct_rxq qid).shm ∧
        (efct_poll_rx_loop qid superbuf_pkts refresh_rc n vi).2.refcnt = vi.refcnt) ∧
      (pkt_id_to_index_in_superbuf (rxq_ptr_to_pkt_id ((vi.rxq_ptr qid).next)) ≥
          superbuf_pkts →
        efct_poll_rx_loop qid superbuf_pkts refresh_rc n vi = ([], vi)) := by
  intro n
  induction n with
  | zero => intro vi hemp; exact ⟨⟨rfl, rfl⟩, fun _ => rfl⟩
  | succ k ih =>
    intro vi hemp
    rw [efct_poll_rx_loop]
    by_cases h1 : pkt_id_to_index_in_superbuf
        (rxq_ptr_to_pkt_id ((vi.rxq_ptr qid).next)) ≥ superbuf_pkts
    · rw [if_pos h1, rx_rollover_empty vi qid hemp,
        if_pos (by norm_num [EAGAIN])]
      exact ⟨⟨rfl, rfl⟩, fun _ => rfl⟩
    · rw [if_neg h1]
      refine ⟨efct_poll_rx_iter_shm qid refresh_rc _
        (fun w hw => (ih w hw).1) vi hemp, fun hge => absurd hge h1⟩

/-- C6: with the fill ring empty (`added = removed` on the shared queue),
`superbuf_next` returns `-EAGAIN` leaving the queue untouched, and an EFCT
RX rollover returns `-EAGAIN` leaving the entire VI state — `rxq_ptr`, the
refcount table and both shared ring counters — unchanged.  A poll in that
state preserves the shared rings and the refcount table, and returns the
events emitted so far: in particular, when a rollover is needed at entry
it returns zero events with the state untouched. -/
theorem efct_rollover_empty_fill_spec (rxq : ef_vi_efct_rxq) (vi : efct_rx_vi)
    (qid evs_len : Nat) (refresh_rc : Int)
    (hq : rxq.shm.rxq.added = rxq.shm.rxq.removed)
    (hv : (vi.efct_rxq qid).shm.rxq.added = (vi.efct_rxq qid).shm.rxq.removed) :
    superbuf_next rxq = (none, rxq) ∧
    rx_rollover vi qid = (-EAGAIN, vi) ∧
    ((efct_poll_rx vi qid evs_len refresh_rc).2.efct_rxq qid).shm =
      (vi.efct_rxq qid).shm ∧
    (efct_poll_rx vi qid evs_len refresh_rc).2.refcnt = vi.refcnt ∧
    (pkt_id_to_index_in_superbuf (rxq_ptr_to_pkt_id ((vi.rxq_ptr qid).next)) ≥
        (vi.efct_rxq qid).superbuf_pkts →
      efct_poll_rx vi qid evs_len refresh_rc = ([], vi)) := by
  refine ⟨superbuf_next_empty rxq hq, rx_rollover_empty vi qid hv, ?_, ?_, ?_⟩
  · rw [efct_poll_rx]
    split_ifs with ha
    · exact ((efct_poll_rx_loop_empty_fill qid _ refresh_rc evs_len vi hv).1).1
    · rfl
  · rw [efct_poll_rx]
    split_ifs with ha
    · exact ((efct_poll_rx_loop_empty_fill qid _ refresh_rc evs_len vi hv).1).2
    · rfl
  · intro hge
    rw [efct_poll_rx]
    split_ifs with ha
    · exact (efct_poll_rx_loop_empty_fill qid _ refresh_rc evs_len vi hv).2 hge
    · rfl

/-- Witness for C6 on the starved VI (empty fill ring, pointer exhausted):
the rollover fails with `-EAGAIN` and a poll of 4 slots yields nothing and
changes nothing. -/
theorem efct_rollover_empty_fill_spec_witness :
    superbuf_next (efct_rx_vi_starved.efct_rxq 0) =
      (none, efct_rx_vi_starved.efct_rxq 0) ∧
    rx_rollover efct_rx_vi_starved 0 = (-EAGAIN, efct_rx_vi_starved) ∧
    efct_poll_rx efct_rx_vi_starved 0 4 0 = ([], efct_rx_vi_starved) := by
  have h := efct_rollover_empty_fill_spec (efct_rx_vi_starved.efct_rxq 0)
    efct_rx_vi_starved 0 4 0 (by decide) (by decide)
  exact ⟨h.1, h.2.1, h.2.2.2.2 (by decide)⟩

/-- C9 counterexample: on the EFCT RX path the VI-level counters violate
`added ≥ removed`: one poll emitting one event from the initial state
leaves `removed = 1` while `added` stays 0, because `efct_poll_rx`
increments `removed` per emitted event and nothing on the EFCT RX path
ever increments `added`. -/
theorem efct_rx_removed_exceeds_added_counterexample :
    (efct_poll_rx efct_rx_vi_ex 0 1 0).1.length = 1 ∧
    (efct_poll_rx efct_rx_vi_ex 0 1 0).2.removed = 1 ∧
    (efct_poll_rx efct_rx_vi_ex 0 1 0).2.added = 0 ∧
    ¬ (efct_poll_rx efct_rx_vi_ex 0 1 0).2.removed ≤
        (efct_poll_rx efct_rx_vi_ex 0 1 0).2.added := by
  refine ⟨rfl, rfl, rfl, by decide⟩

/-- Every AF_XDP descriptor-posting operation preserves the counter
invariant `removed ≤ added ∧ added - removed ≤ mask + 1` on both rings
(the success guard `added - removed < mask` keeps the window within
`mask < mask + 1`). -/
theorem efxdp_step_counters (vi : efxdp_vi) (op : efxdp_op)
    (h : efxdp_counters_ok vi) : efxdp_counters_ok (efxdp_step vi op) := by
  rcases op with ⟨iov, dma⟩ | ⟨kick, base, len, dma⟩ | ⟨addr, dma⟩ <;>
    simp only [efxdp_step, efxdp_ef_vi_transmitv_init, efxdp_ef_vi_transmit,
      efxdp_ef_vi_transmit_push, efxdp_tx_kick, efxdp_ef_vi_receive_init,
      efxdp_counters_ok] at h ⊢ <;>
    split_ifs <;> simp_all <;> omega

/-- C9 (amended): for all sequences of AF_XDP descriptor-posting
operations (transmit, transmitv_init, receive_init), each queue's counters
keep `added ≥ removed` and `added - removed ≤ mask + 1`.  On the EFCT RX
path the invariant does not hold: poll increments `removed` exactly once
per emitted event and never advances `added` (slot reclaim happens through
`ef_vi_transmit_unbundle`-style helpers outside this core). -/
theorem queue_counter_bounds_spec (vi : efxdp_vi) (ops : List efxdp_op)
    (hinv : efxdp_counters_ok vi) :
    efxdp_counters_ok (efxdp_run vi ops) ∧
    (∀ (w : efct_rx_vi) (qid n : Nat) (rrc : Int),
      (efct_poll_rx w qid n rrc).2.added = w.added ∧
      (efct_poll_rx w qid n rrc).2.removed =
        w.removed + (efct_poll_rx w qid n rrc).1.length) := by
  constructor
  · rw [efxdp_run]
    induction ops generalizing vi with
    | nil => exact hinv
    | cons op rest ih => exact ih (efxdp_step vi op) (efxdp_step_counters vi op hinv)
  · intro w qid n rrc
    rw [efct_poll_rx]
    split_ifs with ha
    · exact efct_poll_rx_loop_counts qid _ rrc n w
    · exact ⟨rfl, by simp⟩

/-- Witness for C9's amended theorem: a transmit then a receive post on the
idle VI keep the counters within bounds. -/
theorem queue_counter_bounds_spec_witness :
    efxdp_counters_ok (efxdp_run efxdp_vi_idle
      [efxdp_op.transmit true 4096 64 7, efxdp_op.receive_init 8192 9]) ∧
    (efct_poll_rx efct_rx_vi_ex 0 1 0).2.removed =
      efct_rx_vi_ex.removed + (efct_poll_rx efct_rx_vi_ex 0 1 0).1.length :=
  have h := queue_counter_bounds_spec efxdp_vi_idle
    [efxdp_op.transmit true 4096 64 7, efxdp_op.receive_init 8192 9]
    (by constructor <;> decide)
  ⟨h.1, (h.2 efct_rx_vi_ex 0 1 0).2⟩

/-- One `efct_vi_rxpkt_release` decrements the referenced superbuffer's
refcount by exactly one (the `uint16_t` decrement does not wrap while the
count is positive); the free ring is touched only when the count reaches
zero, in which case the superbuffer's local index is enqueued. -/
theorem efct_vi_rxpkt_release_step (w : efct_rx_vi) (p : Nat)
    (h0 : 0 < w.refcnt (pkt_id_to_global_superbuf_ix p))
    (h16 : w.refcnt (pkt_id_to_global_superbuf_ix p) < 2 ^ 16) :
    (efct_vi_rxpkt_release w p).refcnt (pkt_id_to_global_superbuf_ix p) =
      w.refcnt (pkt_id_to_global_superbuf_ix p) - 1 ∧
    (1 < w.refcnt (pkt_id_to_global_superbuf_ix p) →
      (efct_vi_rxpkt_release w p).efct_rxq = w.efct_rxq) ∧
    (w.refcnt (pkt_id_to_global_superbuf_ix p) = 1 →
      (efct_vi_rxpkt_release w p).efct_rxq =
        Function.update w.efct_rxq (pkt_id_to_rxq_ix p)
          (superbuf_free (w.efct_rxq (pkt_id_to_rxq_ix p))
            (pkt_id_to_local_superbuf_ix p))) := by
  unfold efct_vi_rxpkt_release
  have hr : (w.refcnt (pkt_id_to_global_superbuf_ix p) + (2 ^ 16 - 1)) % 2 ^ 16 =
      w.refcnt (pkt_id_to_global_superbuf_ix p) - 1 := by omega
  simp only [hr]
  refine ⟨?_, fun hgt => ?_, fun heq => ?_⟩
  · split_ifs <;> simp
  · split_ifs with hc
    · exfalso
      have hz : w.refcnt (pkt_id_to_global_superbuf_ix p) - 1 = 0 := by
        simpa using hc
      omega
    · rfl
  · split_ifs with hc
    · rfl
    · exact absurd (by simpa using
        (show w.refcnt (pkt_id_to_global_superbuf_ix p) - 1 = 0 by omega)) hc

/-- While fewer releases than the refcount have happened, iterated releases
count the refcount down without touching the queues or their free rings. -/
theorem efct_release_iterate (p : Nat) : ∀ (k : Nat) (v : efct_rx_vi),
    k < v.refcnt (pkt_id_to_global_superbuf_ix p) →
    v.refcnt (pkt_id_to_global_superbuf_ix p) < 2 ^ 16 →
    ((efct_vi_rxpkt_release · p)^[k] v).refcnt (pkt_id_to_global_superbuf_ix p) =
      v.refcnt (pkt_id_to_global_superbuf_ix p) - k ∧
    ((efct_vi_rxpkt_release · p)^[k] v).efct_rxq = v.efct_rxq := by
  intro k
  induction k with
  | zero => intro v _ _; exact ⟨by simp, rfl⟩
  | succ j ih =>
    intro v hk h16
    obtain ⟨i1, i2⟩ := ih v (by omega) h16
    rw [Function.iterate_succ_apply']
    obtain ⟨s1, s2, _⟩ := efct_vi_rxpkt_release_step
      ((efct_vi_rxpkt_release · p)^[j] v) p (by omega) (by omega)
    refine ⟨by omega, ?_⟩
    rw [s2 (by omega), i2]

/-- C7: a successful rollover preloads the new superbuffer's refcount with
`packets_per_superbuffer`; every release decrements the referenced
superbuffer's refcount by exactly 1 and leaves the queues untouched while
the count stays positive; after exactly `packets_per_superbuffer` releases
(here: after the count, preloaded with it, reaches zero) the superbuffer's
local index is enqueued on the free ring — written at the free ring's
`added & (cap - 1)` slot, with `added` then incremented. -/
theorem efct_release_refcount_spec
    (w : efct_rx_vi) (qid : Nat) (hq : qid < 8)
    (hne : ¬ (w.efct_rxq qid).shm.rxq.added = (w.efct_rxq qid).shm.rxq.removed)
    (hrc : fill_ring_entry w qid < 2 ^ 16)
    (hsb : fill_ring_entry w qid &&& CI_EFCT_Q_SUPERBUF_ID_MASK
      < CI_EFCT_MAX_SUPERBUFS)
    (hpk16 : (w.efct_rxq qid).superbuf_pkts < 2 ^ 16)
    (v : efct_rx_vi) (p n : Nat)
    (hn : v.refcnt (pkt_id_to_global_superbuf_ix p) = n)
    (h0 : 0 < n) (h16 : n < 2 ^ 16) :
    (rx_rollover w qid).2.refcnt
        (qid * CI_EFCT_MAX_SUPERBUFS +
          (fill_ring_entry w qid &&& CI_EFCT_Q_SUPERBUF_ID_MASK)) =
      (w.efct_rxq qid).superbuf_pkts ∧
    (efct_vi_rxpkt_release v p).refcnt (pkt_id_to_global_superbuf_ix p) = n - 1 ∧
    (∀ k, k < n →
      ((efct_vi_rxpkt_release · p)^[k] v).refcnt
          (pkt_id_to_global_superbuf_ix p) = n - k ∧
      ((efct_vi_rxpkt_release · p)^[k] v).efct_rxq = v.efct_rxq) ∧
    ((efct_vi_rxpkt_release · p)^[n] v).refcnt
        (pkt_id_to_global_superbuf_ix p) = 0 ∧
    ((efct_vi_rxpkt_release · p)^[n] v).efct_rxq =
      Function.update v.efct_rxq (pkt_id_to_rxq_ix p)
        (superbuf_free (v.efct_rxq (pkt_id_to_rxq_ix p))
          (pkt_id_to_local_superbuf_ix p)) ∧
    (((efct_vi_rxpkt_release · p)^[n] v).efct_rxq (pkt_id_to_rxq_ix p)).shm.freeq.added =
      (v.efct_rxq (pkt_id_to_rxq_ix p)).shm.freeq.added + 1 ∧
    (((efct_vi_rxpkt_release · p)^[n] v).efct_rxq (pkt_id_to_rxq_ix p)).shm.freeq.q
        ((v.efct_rxq (pkt_id_to_rxq_ix p)).shm.freeq.added &&&
          ((v.efct_rxq (pkt_id_to_rxq_ix p)).shm.freeq.cap - 1)) =
      pkt_id_to_local_superbuf_ix p := by
  -- rollover preload
  have hpre : (rx_rollover w qid).2.refcnt
      (qid * CI_EFCT_MAX_SUPERBUFS +
        (fill_ring_entry w qid &&& CI_EFCT_Q_SUPERBUF_ID_MASK)) =
      (w.efct_rxq qid).superbuf_pkts := by
    have hsn : superbuf_next (w.efct_rxq qid) =
        (some (fill_ring_entry w qid), { w.efct_rxq qid with
          shm.rxq.removed := (w.efct_rxq qid).shm.rxq.removed + 1 }) := by
      rw [superbuf_next, if_neg (by simpa using hne)]
      rfl
    have hg : qid * CI_EFCT_MAX_SUPERBUFS +
        (fill_ring_entry w qid &&& CI_EFCT_Q_SUPERBUF_ID_MASK) < 2 ^ 15 := by
      have : CI_EFCT_MAX_SUPERBUFS = 1024 := rfl
      rw [this] at hsb ⊢
      omega
    have hb : fill_ring_entry w qid >>> 15 ≤ 1 := by
      rw [Nat.shiftRight_eq_div_pow]
      omega
    obtain ⟨-, -, -, -, hd5, -⟩ := next_ptr_decode
      (qid * CI_EFCT_MAX_SUPERBUFS +
        (fill_ring_entry w qid &&& CI_EFCT_Q_SUPERBUF_ID_MASK))
      (fill_ring_entry w qid >>> 15) hg hb
    rw [rx_rollover, hsn]
    simp only
    split_ifs
    · rw [hd5, Function.update_same]
      omega
    · rw [hd5, Function.update_same]
      omega
  -- the releases
  obtain ⟨s1, -, s3⟩ := efct_vi_rxpkt_release_step v p (by omega) (by omega)
  have hlast : ((efct_vi_rxpkt_release · p)^[n] v).refcnt
        (pkt_id_to_global_superbuf_ix p) = 0 ∧
      ((efct_vi_rxpkt_release · p)^[n] v).efct_rxq =
        Function.update v.efct_rxq (pkt_id_to_rxq_ix p)
          (superbuf_free (v.efct_rxq (pkt_id_to_rxq_ix p))
            (pkt_id_to_local_superbuf_ix p)) := by
    obtain ⟨i1, i2⟩ := efct_release_iterate p (n - 1) v (by omega) (by omega)
    have hn1 : n = (n - 1) + 1 := by omega
    rw [hn1, Function.iterate_succ_apply']
    obtain ⟨t1, -, t3⟩ := efct_vi_rxpkt_release_step
      ((efct_vi_rxpkt_release · p)^[n - 1] v) p (by omega) (by omega)
    refine ⟨by omega, ?_⟩
    rw [t3 (by omega), i2]
  refine ⟨hpre, by omega, fun k hk => ?_, hlast.1, hlast.2, ?_, ?_⟩
  · have hit := efct_release_iterate p k v (by omega) (by omega)
    rw [hn] at hit
    exact hit
  · rw [hlast.2, Function.update_same, superbuf_free]
    try simp
  · rw [hlast.2, Function.update_same, superbuf_free]
    try simp

/-- Witness for C7 on the one-filled VI: the rollover preloads superbuffer
5's refcount with 2; from refcount 2, two releases of a packet of
superbuffer 5 reach zero and enqueue local index 5 at free-ring slot 0,
advancing the free ring's `added` from 0 to 1. -/
theorem efct_release_refcount_spec_witness :
    (rx_rollover efct_rx_vi_ex 0).2.refcnt 5 = 2 ∧
    (efct_vi_rxpkt_release efct_rx_vi_refcount2 327680).refcnt 5 = 1 ∧
    ((efct_vi_rxpkt_release · 327680)^[2] efct_rx_vi_refcount2).refcnt 5 = 0 ∧
    (((efct_vi_rxpkt_release · 327680)^[2] efct_rx_vi_refcount2).efct_rxq 0).shm.freeq.added = 1 ∧
    (((efct_vi_rxpkt_release · 327680)^[2] efct_rx_vi_refcount2).efct_rxq 0).shm.freeq.q 0 = 5 := by
  have h := efct_release_refcount_spec efct_rx_vi_ex 0 (by decide) (by decide)
    (by decide) (by decide) (by decide) efct_rx_vi_refcount2 327680 2
    (by decide) (by decide) (by decide)
  obtain ⟨p1, p2, -, p4, -, p6, p7⟩ := h
  refine ⟨?_, ?_, ?_, ?_, ?_⟩
  · have : (0 * CI_EFCT_MAX_SUPERBUFS +
        (fill_ring_entry efct_rx_vi_ex 0 &&& CI_EFCT_Q_SUPERBUF_ID_MASK)) = 5 := by
      decide
    rw [← this]
    exact p1.trans (by decide)
  · exact (by decide : pkt_id_to_global_superbuf_ix 327680 = 5) ▸ p2
  · exact (by decide : pkt_id_to_global_superbuf_ix 327680 = 5) ▸ p4
  · exact (by decide : pkt_id_to_rxq_ix 327680 = 0) ▸ p6
  · have := (by decide : pkt_id_to_rxq_ix 327680 = 0) ▸ p7
    simpa using this

end Onload
